import Mathlib

/-!
Shallow embedding of the reactive core of the `glom` terminal CI dashboard
(`src/id.rs`, `src/domain.rs`, `src/stores.rs`, `src/notice_service.rs`,
`src/client/api.rs`), together with theorems settling the specification
claims about it.

Machine integers (`u32`, `u64`) are modelled as `Nat` with explicit
`% 2 ^ 32` / `% 2 ^ 64` where the source can overflow; timestamps
(`DateTime<Utc>`) are modelled as `Int` seconds since the epoch;
`CompactString` is `String`; Rust panics are modelled by `Option`
(`none` = panic); the mpsc sender is modelled by accumulating the
dispatched events in a list, in dispatch order.
-/

namespace Glom

/-! ### Identifiers (`src/id.rs`) -/

/-- `ProjectId` wraps an owner/repo string key (`id.rs`). -/
structure ProjectId where
  value : String
deriving DecidableEq, Repr

/-- `PipelineId` wraps a `u64` (`id.rs`). -/
structure PipelineId where
  value : Nat
deriving DecidableEq, Repr

/-- `JobId` wraps a `u64` (`id.rs`). -/
structure JobId where
  value : Nat
deriving DecidableEq, Repr

def ProjectId.new (s : String) : ProjectId := ⟨s⟩
def PipelineId.new (n : Nat) : PipelineId := ⟨n⟩
def JobId.new (n : Nat) : JobId := ⟨n⟩

/-! ### Domain enums (`src/domain.rs`) -/

/-- `PipelineStatus` (`domain.rs`). -/
inductive PipelineStatus where
  | queued | inProgress | completed | actionRequired | cancelled | failure
  | neutral | skipped | stale | success | timedOut | unknown
deriving DecidableEq, Repr

/-- `PipelineStatus::is_active` (`domain.rs`): queued, in-progress or
action-required. -/
def PipelineStatus.is_active : PipelineStatus → Bool
  | .queued => true
  | .inProgress => true
  | .actionRequired => true
  | _ => false

/-- `PipelineSource` (`domain.rs`). -/
inductive PipelineSource where
  | push | pullRequest | release | schedule | workflowDispatch
  | checkRun | checkSuite | create | del | deployment | deploymentStatus
  | fork | gollum | issueComment | issues | label | milestone | pageBuild
  | project | projectCard | projectColumn | publicized | pullRequestReview
  | pullRequestReviewComment | registryPackage | repositoryDispatch
  | statusSrc | watch | workflowRun | unknown
deriving DecidableEq, Repr

/-- `PipelineSource::is_interesting` (`domain.rs`). -/
def PipelineSource.is_interesting : PipelineSource → Bool
  | .push => true
  | .pullRequest => true
  | .schedule => true
  | .workflowDispatch => true
  | .release => true
  | _ => false

/-! ### Domain entities (`src/domain.rs`) -/

/-- `Commit` (`domain.rs`). -/
structure Commit where
  title : String
  author_name : String
deriving DecidableEq, Repr

/-- `Job` (`domain.rs`). Timestamps are `Int` seconds. -/
structure Job where
  id : JobId
  name : String
  status : PipelineStatus
  stage : String
  created_at : Int
  started_at : Option Int
  finished_at : Option Int
  url : String
deriving DecidableEq, Repr

/-- `Pipeline` (`domain.rs`). -/
structure Pipeline where
  id : PipelineId
  project_id : ProjectId
  name : String
  status : PipelineStatus
  source : PipelineSource
  branch : String
  url : String
  created_at : Int
  updated_at : Int
  jobs : Option (List Job)
  commit : Option Commit
deriving DecidableEq, Repr

/-- `Project` (`domain.rs`). `commit_count` is a `u32`; the size counters
are `u64`; both are modelled as `Nat`. -/
structure Project where
  id : ProjectId
  path : String
  description : Option String
  default_branch : String
  ssh_git_url : String
  url : String
  last_activity_at : Int
  pipelines : Option (List Pipeline)
  commit_count : Nat
  repo_size_kb : Nat
  artifacts_size_kb : Nat
  statistics_loading : Bool
deriving DecidableEq, Repr

/-! ### DTOs (`src/domain.rs`) -/

/-- `ProjectDto` (`domain.rs`). -/
structure ProjectDto where
  full_name : String
  description : Option String
  default_branch : String
  ssh_url : String
  html_url : String
  updated_at : Int
deriving DecidableEq, Repr

/-- `CommitDto` (`domain.rs`). -/
structure CommitDto where
  title : String
  author_name : String
deriving DecidableEq, Repr

/-- `JobDto` (`domain.rs`). `completed_at` is the wire name of the
finished timestamp. -/
structure JobDto where
  id : JobId
  name : String
  commit : CommitDto
  status : PipelineStatus
  created_at : Int
  started_at : Option Int
  completed_at : Option Int
  html_url : String
deriving DecidableEq, Repr

/-- `PipelineDto` (`domain.rs`). -/
structure PipelineDto where
  id : PipelineId
  project_id : ProjectId
  name : String
  status : PipelineStatus
  event : PipelineSource
  head_branch : Option String
  html_url : String
  created_at : Int
  updated_at : Int
deriving DecidableEq, Repr

/-- `StatisticsDto` (`domain.rs`). -/
structure StatisticsDto where
  commit_count : Nat
  job_artifacts_size : Nat
  repository_size : Nat
deriving DecidableEq, Repr

/-- `RepositoryDetailsDto` (`domain.rs`): repository size in KB. -/
structure RepositoryDetailsDto where
  size : Nat
deriving DecidableEq, Repr

/-- `ArtifactDto` (`domain.rs`). -/
structure ArtifactDto where
  size_in_bytes : Nat
deriving DecidableEq, Repr

/-- `ContributorDto` (`domain.rs`). -/
structure ContributorDto where
  contributions : Nat
deriving DecidableEq, Repr

/-! ### DTO → entity conversions (`src/domain.rs`, `impl From`) -/

/-- `impl From<ProjectDto> for Project` (`domain.rs`). -/
def Project.fromDto (p : ProjectDto) : Project :=
  { id := ProjectId.new p.full_name
    description := p.description
    path := p.full_name
    default_branch := p.default_branch
    ssh_git_url := p.ssh_url
    url := p.html_url
    last_activity_at := p.updated_at
    pipelines := none
    commit_count := 0
    repo_size_kb := 0
    artifacts_size_kb := 0
    statistics_loading := false }

/-- `impl From<PipelineDto> for Pipeline` (`domain.rs`). -/
def Pipeline.fromDto (p : PipelineDto) : Pipeline :=
  { id := p.id
    project_id := p.project_id
    name := p.name
    status := p.status
    source := p.event
    branch := p.head_branch.getD "unknown"
    url := p.html_url
    created_at := p.created_at
    updated_at := p.updated_at
    jobs := none
    commit := none }

/-- `impl From<JobDto> for Job` (`domain.rs`). -/
def Job.fromDto (j : JobDto) : Job :=
  { id := j.id
    name := j.name
    stage := "job"
    status := j.status
    created_at := j.created_at
    started_at := j.started_at
    finished_at := j.completed_at
    url := j.html_url }

/-- `impl From<CommitDto> for Commit` (`domain.rs`). -/
def Commit.fromDto (c : CommitDto) : Commit :=
  { title := c.title, author_name := c.author_name }

/-! ### Domain methods (`src/domain.rs`) -/

/-- `Pipeline::has_active_jobs` (`domain.rs`). -/
def Pipeline.has_active_jobs (self : Pipeline) : Bool :=
  match self.jobs with
  | some jobs => jobs.any (fun j => j.status.is_active)
  | none => false

/-- `Project::last_activity` (`domain.rs`). -/
def Project.last_activity (self : Project) : Int := self.last_activity_at

/-- `Project::recent_pipelines` (`domain.rs`): the first 8 pipelines with
an interesting source, or nothing when pipelines were never fetched. -/
def Project.recent_pipelines (self : Project) : List Pipeline :=
  match self.pipelines with
  | some ps => (ps.filter (fun p => p.source.is_interesting)).take 8
  | none => []

/-- `Project::pipeline` (`domain.rs`): first pipeline with the given id. -/
def Project.pipeline (self : Project) (id : PipelineId) : Option Pipeline :=
  self.pipelines.bind (fun ps => ps.find? (fun p => decide (p.id = id)))

/-- The per-element merge performed inside `Project::update_pipelines`
(`domain.rs`): an incoming pipeline whose id matches an existing pipeline
keeps the existing `jobs` and `commit`, everything else comes from the
incoming value. -/
def Project.mergePipeline (self : Project) (p : Pipeline) : Pipeline :=
  match self.pipelines.bind (fun ps => ps.find? (fun ep => decide (ep.id = p.id))) with
  | some existing => { p with jobs := existing.jobs, commit := existing.commit }
  | none => p

/-- `Project::update_pipelines` (`domain.rs`): merge each incoming
pipeline against the existing one with the same id, then store the result
sorted by `updated_at` descending (itertools `sorted_by` with comparator
`b.updated_at.cmp(&a.updated_at)` is a stable sort; a stable sort over a
total preorder is unique, so insertion sort embeds it faithfully). -/
def Project.update_pipelines (self : Project) (pipelines : List Pipeline) : Project :=
  { self with
    pipelines := some
      ((pipelines.map (fun p => self.mergePipeline p)).insertionSort
        (fun a b => b.updated_at ≤ a.updated_at)) }

/-- `Project::update_project` (`domain.rs`): overwrite the mutable
identity fields; `description`, `pipelines` and the statistics counters
are left untouched. -/
def Project.update_project (self : Project) (project : Project) : Project :=
  { self with
    id := project.id
    path := project.path
    default_branch := project.default_branch
    ssh_git_url := project.ssh_git_url
    url := project.url
    last_activity_at := project.last_activity_at }

/-- Mutate the first pipeline with the given id, as `iter_mut().find`
followed by a field assignment does in Rust. -/
def updateFirstPipeline (ps : List Pipeline) (id : PipelineId)
    (f : Pipeline → Pipeline) : List Pipeline :=
  match ps with
  | [] => []
  | p :: rest =>
    if p.id = id then f p :: rest else p :: updateFirstPipeline rest id f

/-- `Project::update_jobs` (`domain.rs`). -/
def Project.update_jobs (self : Project) (pipeline_id : PipelineId)
    (jobs : List Job) : Project :=
  match self.pipelines with
  | some ps =>
    { self with
      pipelines := some (updateFirstPipeline ps pipeline_id
        (fun p => { p with jobs := some jobs })) }
  | none => self

/-- `Project::update_commit` (`domain.rs`). -/
def Project.update_commit (self : Project) (pipeline_id : PipelineId)
    (commit : Commit) : Project :=
  match self.pipelines with
  | some ps =>
    { self with
      pipelines := some (updateFirstPipeline ps pipeline_id
        (fun p => { p with commit := some commit })) }
  | none => self

/-! ### JSON wire values and identifier deserialization (`src/id.rs`)

The serde/serde_json machinery is embedded on a small JSON value type:
numbers carry an `Int` (the claims only concern integral wire values). -/

/-- A JSON value, as parsed by serde_json. -/
inductive Json where
  | null
  | bool (b : Bool)
  | num (n : Int)
  | str (s : String)
  | arr (xs : List Json)
  | obj (fields : List (String × Json))

/-- serde_json deserialization of a `u64`: only a non-negative integral
number in `u64` range succeeds; in particular a JSON string is rejected. -/
def deserializeU64 (j : Json) : Option Nat :=
  match j with
  | .num n => if 0 ≤ n ∧ n < 2 ^ 64 then some n.toNat else none
  | _ => none

/-- `impl Deserialize for ProjectId` (`id.rs`): a `deserialize_any`
visitor accepting strings (`visit_str`/`visit_string`) and integers
(`visit_u64`/`visit_i64`, stringified); anything else is an error. -/
def deserializeProjectId (j : Json) : Option ProjectId :=
  match j with
  | .str s => some (ProjectId.new s)
  | .num n =>
    if (0 ≤ n ∧ n < 2 ^ 64) ∨ (-(2 ^ 63) ≤ n ∧ n < 0) then
      some (ProjectId.new (toString n))
    else none
  | _ => none

/-- `impl Deserialize for PipelineId` (`id.rs`): delegates to
`u64::deserialize`. -/
def deserializePipelineId (j : Json) : Option PipelineId :=
  (deserializeU64 j).map PipelineId.new

/-- `impl Deserialize for JobId` (`id.rs`): delegates to
`u64::deserialize`. -/
def deserializeJobId (j : Json) : Option JobId :=
  (deserializeU64 j).map JobId.new

/-! ### Client error taxonomy and 401 classification (`src/client/api.rs`) -/

/-- Modelled from the spec: the client-level error taxonomy of the
error-handling design section (`client/error.rs` is not among the
sources; every constructor below is used by `client/api.rs`). -/
inductive ClientError where
  | http
  | jsonParse (endpoint message : String)
  | githubApi (message : String)
  | config (message : String)
  | configValidation (field message : String)
  | authentication
  | invalidToken
  | expiredToken
  | timeout
  | invalidUrl
  | notFound (resource : String)
  | rateLimit (retry_after : Option Nat)
deriving DecidableEq, Repr

/-- `struct GithubApiError` (`api.rs`): first GitHub error body shape. -/
structure GithubApiError where
  error : String
  error_description : Option String
deriving DecidableEq, Repr

/-- `struct GithubApiError2` (`api.rs`): second GitHub error body shape. -/
structure GithubApiError2 where
  message : String
deriving DecidableEq, Repr

/-- serde_json deserialization of `GithubApiError` from a JSON body:
an object with a required string field `error` and an optional string
field `error_description` (absent or `null` gives `None`); unknown
fields are ignored. -/
def parseGithubApiError (j : Json) : Option GithubApiError :=
  match j with
  | .obj fields =>
    match fields.find? (fun kv => kv.1 == "error") with
    | some (_, .str e) =>
      match fields.find? (fun kv => kv.1 == "error_description") with
      | none => some ⟨e, none⟩
      | some (_, .str d) => some ⟨e, some d⟩
      | some (_, .null) => some ⟨e, none⟩
      | some _ => none
    | _ => none
  | _ => none

/-- serde_json deserialization of `GithubApiError2` from a JSON body. -/
def parseGithubApiError2 (j : Json) : Option GithubApiError2 :=
  match j with
  | .obj fields =>
    match fields.find? (fun kv => kv.1 == "message") with
    | some (_, .str m) => some ⟨m⟩
    | _ => none
  | _ => none

/-- Rust `str::contains` on ASCII needles: infix of the character list. -/
def strContains (haystack needle : String) : Bool :=
  decide (needle.toList <:+: haystack.toList)

/-- `GithubApi::handle_error_response` (`api.rs`): status-code-driven
classification of a non-2xx response, with payload-aware
sub-classification of 401s. The body is taken already parsed to a JSON
value when it is valid JSON (`none` = not a JSON document); the raw body
text is passed separately for the fallback messages. -/
def handle_error_response (status : Nat) (body : Option Json)
    (bodyText : String) : ClientError :=
  match status with
  | 401 =>
    match body.bind parseGithubApiError with
    | some api_error =>
      if api_error.error = "invalid_token" then ClientError.invalidToken
      else if api_error.error = "expired_token" then ClientError.expiredToken
      else
        match api_error.error_description with
        | some description =>
          if strContains description "expired" || strContains description "expiry" then
            ClientError.expiredToken
          else ClientError.authentication
        | none => ClientError.authentication
    | none => ClientError.authentication
  | 404 => ClientError.notFound "Resource"
  | 422 =>
    match body.bind parseGithubApiError2 with
    | some api_error =>
      ClientError.githubApi ("Validation Failed: " ++ api_error.message)
    | none => ClientError.githubApi ("Validation Failed: " ++ bodyText)
  | 429 => ClientError.rateLimit none
  | _ =>
    match body.bind parseGithubApiError with
    | some api_error =>
      ClientError.githubApi
        ("HTTP " ++ toString status ++ ": " ++ api_error.error ++ " "
          ++ api_error.error_description.getD "")
    | none =>
      match body.bind parseGithubApiError2 with
      | some api_error2 =>
        ClientError.githubApi ("HTTP " ++ toString status ++ ": " ++ api_error2.message)
      | none => ClientError.githubApi ("HTTP " ++ toString status ++ ": " ++ bodyText)

/-! ### Job fetch and the statistics composite (`src/client/api.rs`)

Each remote endpoint's outcome is a parameter (`Except ClientError …`);
the functions below are the pure result-combination logic of the
corresponding `async fn`s. -/

/-- The post-processing of `GithubApi::get_jobs` (`api.rs`): the jobs of
the response are sorted by job id ascending (`sort_by_key`, a stable
sort, embedded as the stable insertion sort) before the result is
returned. -/
def get_jobs_result (response_jobs : List JobDto) : List JobDto :=
  response_jobs.insertionSort (fun a b => a.id.value ≤ b.id.value)

/-- `GithubApi::get_total_artifacts_size` (`api.rs`): sum of the artifact
sizes (`u64` sum, wrapping), or `0` when the artifact-list fetch fails;
never an error. -/
def get_total_artifacts_size
    (artifacts : Except ClientError (List ArtifactDto)) : Except ClientError Nat :=
  match artifacts with
  | .ok response => .ok ((response.map (fun a => a.size_in_bytes)).sum % 2 ^ 64)
  | .error _ => .ok 0

/-- `GithubApi::get_commit_count_fallback` (`api.rs`): the length of the
most recent page of commits (`u32` cast), or `0` when that also fails;
never an error. -/
def get_commit_count_fallback
    (commits : Except ClientError (List Json)) : Except ClientError Nat :=
  match commits with
  | .ok page => .ok (page.length % 2 ^ 32)
  | .error _ => .ok 0

/-- `GithubApi::get_commit_count` (`api.rs`): sum of the contributor
contribution counts (`u32` sum, wrapping), falling back to counting the
most recent page of commits when the contributor fetch fails. -/
def get_commit_count (contributors : Except ClientError (List ContributorDto))
    (commits : Except ClientError (List Json)) : Except ClientError Nat :=
  match contributors with
  | .ok cs => .ok ((cs.map (fun c => c.contributions)).sum % 2 ^ 32)
  | .error _ => get_commit_count_fallback commits

/-- `GithubApi::get_repository_statistics` (`api.rs`): the base
repository-metadata fetch is required; the commit-count and
artifact-size sub-results are taken with `unwrap_or(0)`. -/
def get_repository_statistics
    (repo_details : Except ClientError RepositoryDetailsDto)
    (contributors : Except ClientError (List ContributorDto))
    (commits : Except ClientError (List Json))
    (artifacts : Except ClientError (List ArtifactDto)) :
    Except ClientError StatisticsDto :=
  match repo_details with
  | .error e => .error e
  | .ok details =>
    let commit_count :=
      match get_commit_count contributors commits with
      | .ok n => n
      | .error _ => 0
    let artifacts_size :=
      match get_total_artifacts_size artifacts with
      | .ok n => n
      | .error _ => 0
    .ok { commit_count := commit_count
          repository_size := details.size * 1024 % 2 ^ 64
          job_artifacts_size := artifacts_size }

/-! ### Notice queue (`src/notice_service.rs`) -/

/-- `NoticeLevel` (`notice_service.rs`). -/
inductive NoticeLevel where
  | info
  | error
deriving DecidableEq, Repr

/-- The category of a serde_json error (`serde_json::error::Category`). -/
inductive JsonErrCategory where
  | ioCat | synCat | dataCat | eofCat
deriving DecidableEq, Repr

/-- `NoticeMessage` (`notice_service.rs`). -/
inductive NoticeMessage where
  | generalMessage (s : String)
  | jobLogDownloaded (p : ProjectId) (j : JobId)
  | screenCaptured
  | invalidGithubToken
  | expiredGithubToken
  | configError (s : String)
  | jsonDeserializeError (c : JsonErrCategory) (s : String)
  | githubGetJobsError (p : ProjectId) (pl : PipelineId) (s : String)
  | githubGetTriggerJobsError (p : ProjectId) (pl : PipelineId) (s : String)
  | githubGetPipelinesError (p : ProjectId) (pl : PipelineId) (s : String)
  | logLevelChanged (level : Nat)
deriving DecidableEq, Repr

/-- `Notice` (`notice_service.rs`). -/
structure Notice where
  level : NoticeLevel
  message : NoticeMessage
deriving DecidableEq, Repr

/-- `NoticeService` (`notice_service.rs`): two FIFO queues (front =
head of the list, push at the back) and the most recently popped
notice. -/
structure NoticeService where
  info_notices : List Notice
  error_notices : List Notice
  most_recent : Option Notice
deriving DecidableEq, Repr

/-- `NoticeService::new` (`notice_service.rs`). -/
def NoticeService.new : NoticeService :=
  { info_notices := [], error_notices := [], most_recent := none }

/-- `NoticeService::has_error` (`notice_service.rs`). -/
def NoticeService.has_error (self : NoticeService) : Bool :=
  !self.error_notices.isEmpty

/-- `NoticeService::push_notice` (`notice_service.rs`). -/
def NoticeService.push_notice (self : NoticeService) (level : NoticeLevel)
    (message : NoticeMessage) : NoticeService :=
  let notice : Notice := { level := level, message := message }
  match level with
  | .info => { self with info_notices := self.info_notices ++ [notice] }
  | .error => { self with error_notices := self.error_notices ++ [notice] }

/-- `NoticeService::pop_notice` (`notice_service.rs`):
`error_notices.pop_front().or_else(|| info_notices.pop_front())`, and the
popped notice (when any) becomes `most_recent`. Returns the popped notice
and the new state. -/
def NoticeService.pop_notice (self : NoticeService) :
    Option Notice × NoticeService :=
  match self.error_notices with
  | n :: rest =>
    (some n, { self with error_notices := rest, most_recent := some n })
  | [] =>
    match self.info_notices with
    | n :: rest =>
      (some n, { self with info_notices := rest, most_recent := some n })
    | [] => (none, self)

/-- Repeatedly `pop_notice` until it returns `None`, collecting the
popped notices in order; `fuel` bounds the iteration. -/
def NoticeService.popNotices (fuel : Nat) (self : NoticeService) : List Notice :=
  match fuel with
  | 0 => []
  | fuel + 1 =>
    match self.pop_notice with
    | (some n, next) => n :: NoticeService.popNotices fuel next
    | (none, _) => []

/-! ### Events (`src/event.rs`)

Only the variants the reconciliation store consumes or produces are
given payloads faithfully; the remaining variants of the closed Rust
union are irrelevant here and are represented by `otherEvent`, which the
store's default match arm ignores. -/

/-- `GlomEvent` (`event.rs`), restricted to the store-relevant variants. -/
inductive GlomEvent where
  | ProjectDetailsOpen (id : ProjectId)
  | ProjectsLoaded (projects : List ProjectDto)
  | PipelinesLoaded (pipelines : List PipelineDto)
  | JobsLoaded (project_id : ProjectId) (pipeline_id : PipelineId) (jobs : List JobDto)
  | ProjectStatisticsLoaded (project_id : ProjectId) (statistics : StatisticsDto)
  | ProjectSelected (id : ProjectId)
  | ProjectUpdated (project : Project)
  | PipelinesFetch (id : ProjectId)
  | JobsFetch (project_id : ProjectId) (pipeline_id : PipelineId)
  | ProjectStatisticsFetch (id : ProjectId)
  | otherEvent
deriving DecidableEq, Repr

/-! ### Reconciliation store (`src/stores.rs`)

The `HashMap<ProjectId, usize>` is modelled as an association list whose
keys are kept distinct (the store only ever inserts an absent key), the
mpsc sender as an accumulated event list, and `Utc::now()` as an explicit
`now` parameter (`Int` seconds). `Option` models panics: `none` means the
handler panicked. -/

/-- `ProjectStore` (`stores.rs`), without the sender handle. -/
structure ProjectStore where
  projects : List Project
  project_id_lookup : List (ProjectId × Nat)
  sorted : List Project
deriving DecidableEq, Repr

/-- `ProjectStore::new` (`stores.rs`). -/
def ProjectStore.new : ProjectStore :=
  { projects := [], project_id_lookup := [], sorted := [] }

/-- `HashMap::get` on the association list. -/
def lookupGet (m : List (ProjectId × Nat)) (id : ProjectId) : Option Nat :=
  (m.find? (fun kv => decide (kv.1 = id))).map (fun kv => kv.2)

/-- `ProjectStore::project_idx` (`stores.rs`). -/
def ProjectStore.project_idx (self : ProjectStore) (id : ProjectId) : Option Nat :=
  lookupGet self.project_id_lookup id

/-- `ProjectStore::find` (`stores.rs`):
`self.project_idx(id).map(|idx| &self.projects[idx])`. The indexing
panics when the lookup entry is out of bounds, hence the nested
`Option`: the outer `none` is that panic. -/
def ProjectStore.find (self : ProjectStore) (id : ProjectId) :
    Option (Option Project) :=
  match self.project_idx id with
  | none => some none
  | some idx =>
    match self.projects[idx]? with
    | some p => some (some p)
    | none => none

/-- Mutating through `find_mut` at index `idx`: `List.modify` applies
`f` to the element at `idx` (no-op when out of bounds, which the callers
rule out by first reading the element). -/
def ProjectStore.modifyAt (self : ProjectStore) (idx : Nat)
    (f : Project → Project) : ProjectStore :=
  { self with projects := self.projects.modify f idx }

/-- `projects_sorted_by_last_activity` (`stores.rs`): itertools
`sorted_by` (stable) with comparator `b.last_activity().cmp(&a)`, i.e.
descending last activity, embedded as the stable insertion sort. -/
def ProjectStore.projects_sorted_by_last_activity (self : ProjectStore) :
    List Project :=
  self.projects.insertionSort (fun a b => b.last_activity ≤ a.last_activity)

/-- `is_older_than_7d` (`stores.rs`):
`Utc::now().signed_duration_since(date).num_days() > 7`, where
`num_days` is seconds divided by 86400, truncating toward zero. -/
def is_older_than_7d (now date : Int) : Bool :=
  decide ((now - date).tdiv 86400 > 7)

/-- `ProjectStore::sync_project` (`stores.rs`). Returns the new store
and the dispatched events; the outer `none` is a panic (an out-of-bounds
lookup entry reached through `find_mut`). -/
def ProjectStore.sync_project (now : Int) (self : ProjectStore)
    (project : Project) : Option (ProjectStore × List GlomEvent) :=
  let project_id := project.id
  match self.project_idx project_id with
  | some idx =>
    match self.projects[idx]? with
    | none => none
    | some _ =>
      some (self.modifyAt idx (fun existing_entry => existing_entry.update_project project),
        [GlomEvent.PipelinesFetch project_id])
  | none =>
    let self1 :=
      { self with
        project_id_lookup :=
          self.project_id_lookup ++ [(project_id, self.projects.length)] }
    if is_older_than_7d now project.last_activity then
      some ({ self1 with projects := self1.projects ++ [project] }, [])
    else
      some ({ self1 with
        projects := self1.projects ++ [{ project with pipelines := some [] }] },
        [GlomEvent.PipelinesFetch project_id])

/-- The `for_each` over the incoming batch inside the `ProjectsLoaded`
arm (`stores.rs`): each DTO is converted, synced, and a `ProjectUpdated`
event carrying the converted (pre-merge) project is dispatched. -/
def ProjectStore.syncAll (now : Int) (self : ProjectStore)
    (dtos : List ProjectDto) : Option (ProjectStore × List GlomEvent) :=
  match dtos with
  | [] => some (self, [])
  | dto :: rest =>
    let p := Project.fromDto dto
    match self.sync_project now p with
    | none => none
    | some (s1, evts1) =>
      match ProjectStore.syncAll now s1 rest with
      | none => none
      | some (s2, evts2) =>
        some (s2, evts1 ++ [GlomEvent.ProjectUpdated p] ++ evts2)

/-- `ProjectStore::apply` (`stores.rs`): the store's event handler.
Returns the new store and the dispatched events in dispatch order;
`none` models a panic. -/
def ProjectStore.apply (now : Int) (self : ProjectStore) (event : GlomEvent) :
    Option (ProjectStore × List GlomEvent) :=
  match event with
  | .ProjectDetailsOpen id =>
    -- let project = self.find(id.clone()).unwrap();
    match self.find id with
    | none => none
    | some none => none
    | some (some project) =>
      let project_id := project.id
      let jobsFetches :=
        ((project.recent_pipelines).filter (fun p => p.jobs.isNone)).map
          (fun p => GlomEvent.JobsFetch project_id p.id)
      if project.commit_count = 0 ∧ project.repo_size_kb = 0
          ∧ project.artifacts_size_kb = 0 ∧ project.statistics_loading = false then
        match self.project_idx project_id with
        | none =>
          some (self, jobsFetches ++ [GlomEvent.ProjectStatisticsFetch project_id])
        | some idx =>
          match self.projects[idx]? with
          | none => none
          | some project_mut =>
            some (self.modifyAt idx (fun p => { p with statistics_loading := true }),
              jobsFetches
                ++ [GlomEvent.ProjectUpdated { project_mut with statistics_loading := true },
                    GlomEvent.ProjectStatisticsFetch project_id])
      else some (self, jobsFetches)
  | .ProjectsLoaded dtos =>
    let first_projects := self.sorted.isEmpty
    match self.syncAll now dtos with
    | none => none
    | some (s1, evts) =>
      let s2 := { s1 with sorted := s1.projects_sorted_by_last_activity }
      if first_projects then
        -- self.sorted.first().unwrap()
        match s2.sorted.head? with
        | none => none
        | some hd => some (s2, evts ++ [GlomEvent.ProjectSelected hd.id])
      else some (s2, evts)
  | .PipelinesLoaded dtos =>
    -- let project_id = pipelines[0].project_id.clone();
    match dtos.head? with
    | none => none
    | some first =>
      let project_id := first.project_id
      match self.project_idx project_id with
      | none => some ({ self with sorted := self.projects_sorted_by_last_activity }, [])
      | some idx =>
        match self.projects[idx]? with
        | none => none
        | some project =>
          let pipelines := dtos.map Pipeline.fromDto
          let jobsFetches :=
            (pipelines.filter (fun p => p.status.is_active || p.has_active_jobs)).map
              (fun p => GlomEvent.JobsFetch project_id p.id)
          let s1 := self.modifyAt idx (fun pr => pr.update_pipelines pipelines)
          some ({ s1 with sorted := s1.projects_sorted_by_last_activity },
            jobsFetches
              ++ [GlomEvent.ProjectUpdated (project.update_pipelines pipelines)])
  | .JobsLoaded project_id pipeline_id job_dtos =>
    let jobs := job_dtos.map Job.fromDto
    match self.project_idx project_id with
    | none => some ({ self with sorted := self.projects_sorted_by_last_activity }, [])
    | some idx =>
      match self.projects[idx]? with
      | none => none
      | some project =>
        -- job_dtos.first().map(|j| j.commit.clone().into()).unwrap()
        match job_dtos.head? with
        | none => none
        | some j0 =>
          let upd := fun (pr : Project) =>
            (pr.update_jobs pipeline_id jobs).update_commit pipeline_id
              (Commit.fromDto j0.commit)
          let s1 := self.modifyAt idx upd
          some ({ s1 with sorted := s1.projects_sorted_by_last_activity },
            [GlomEvent.ProjectUpdated (upd project)])
  | .ProjectStatisticsLoaded project_id statistics =>
    match self.project_idx project_id with
    | none => some (self, [])
    | some idx =>
      match self.projects[idx]? with
      | none => none
      | some project =>
        let upd := fun (p : Project) =>
          { p with
            commit_count := statistics.commit_count
            repo_size_kb := statistics.repository_size / 1024
            artifacts_size_kb := statistics.job_artifacts_size / 1024
            statistics_loading := false }
        some (self.modifyAt idx upd, [GlomEvent.ProjectUpdated (upd project)])
  | .ProjectSelected id =>
    match self.project_idx id with
    | none => some (self, [])
    | some idx =>
      match self.projects[idx]? with
      | none => none
      | some project =>
        if project.pipelines.isNone then
          some (self.modifyAt idx (fun p => { p with pipelines := some [] }),
            [GlomEvent.PipelinesFetch id])
        else some (self, [])
  | _ => some (self, [])

/-! ### Structural invariants of the store -/

/-- The structural invariant of `ProjectStore` (`stores.rs`): the lookup
map's keys are distinct (it models a `HashMap`), it has exactly as many
entries as the backing project sequence, and every entry resolves to the
project whose id equals the key. -/
def ProjectStore.Wf (s : ProjectStore) : Prop :=
  (s.project_id_lookup.map Prod.fst).Nodup
  ∧ s.project_id_lookup.length = s.projects.length
  ∧ ∀ kv ∈ s.project_id_lookup, (s.projects[kv.2]?).map Project.id = some kv.1

instance (s : ProjectStore) : Decidable s.Wf := by
  unfold ProjectStore.Wf; infer_instance

/-- A store evolution never removes a project (each existing position
keeps its project id and the sequence only grows), and never resets a
present `pipelines` field back to absent. -/
def ProjectStore.preserves (old new : ProjectStore) : Prop :=
  old.projects.length ≤ new.projects.length
  ∧ ∀ (i : Nat) (p : Project), old.projects[i]? = some p →
      ∃ q : Project, new.projects[i]? = some q ∧ q.id = p.id
        ∧ (p.pipelines.isSome = true → q.pipelines.isSome = true)

/-- Recognize a `ProjectStatisticsFetch` event. -/
def GlomEvent.isStatisticsFetch : GlomEvent → Bool
  | .ProjectStatisticsFetch _ => true
  | _ => false

/-! ### Concrete sample values used by the witnesses -/

def sampleProjectId : ProjectId := ProjectId.new "acme/widgets"

def sampleJob : Job :=
  { id := JobId.new 1, name := "build", status := .success, stage := "job"
    created_at := 0, started_at := none, finished_at := none, url := "" }

def sampleCommit : Commit := { title := "initial", author_name := "ada" }

def samplePipeline : Pipeline :=
  { id := PipelineId.new 10, project_id := sampleProjectId, name := "ci"
    status := .success, source := .push, branch := "main", url := ""
    created_at := 0, updated_at := 5, jobs := some [sampleJob]
    commit := some sampleCommit }

def sampleProject : Project :=
  { id := sampleProjectId, path := "acme/widgets", description := none
    default_branch := "main", ssh_git_url := "", url := ""
    last_activity_at := 0, pipelines := some [samplePipeline]
    commit_count := 0, repo_size_kb := 0, artifacts_size_kb := 0
    statistics_loading := false }

def sampleStore : ProjectStore :=
  { projects := [sampleProject]
    project_id_lookup := [(sampleProjectId, 0)]
    sorted := [sampleProject] }

def samplePipelineDto : PipelineDto :=
  { id := PipelineId.new 10, project_id := sampleProjectId, name := "ci"
    status := .failure, event := .push, head_branch := some "dev"
    html_url := "u", created_at := 1, updated_at := 9 }

def sampleJobDto : JobDto :=
  { id := JobId.new 7, name := "test", commit := { title := "t", author_name := "a" }
    status := .success, created_at := 0, started_at := none
    completed_at := none, html_url := "" }

def sampleJobDto2 : JobDto :=
  { id := JobId.new 3, name := "lint", commit := { title := "t2", author_name := "b" }
    status := .failure, created_at := 0, started_at := none
    completed_at := none, html_url := "" }

def sampleProjectDto : ProjectDto :=
  { full_name := "acme/gadgets", description := none, default_branch := "main"
    ssh_url := "", html_url := "", updated_at := 100 }

def sampleNotice (n : Nat) (level : NoticeLevel) : Notice :=
  { level := level, message := NoticeMessage.generalMessage (toString n) }

def sampleNoticeService : NoticeService :=
  { info_notices := [sampleNotice 1 .info, sampleNotice 2 .info]
    error_notices := [sampleNotice 3 .error]
    most_recent := none }

/-! ## Theorems -/

/-- Popping with enough fuel drains the error queue first, then the info
queue. -/
theorem popNotices_drain (fuel : Nat) :
    ∀ (errs infos : List Notice) (mr : Option Notice),
    fuel = errs.length + infos.length →
    NoticeService.popNotices fuel ⟨infos, errs, mr⟩ = errs ++ infos := by
  induction fuel with
  | zero =>
    intro errs infos mr h
    have he : errs = [] := List.eq_nil_of_length_eq_zero (by omega)
    have hi : infos = [] := List.eq_nil_of_length_eq_zero (by omega)
    subst he; subst hi; rfl
  | succ n ih =>
    intro errs infos mr h
    cases errs with
    | cons e rest =>
      simp only [NoticeService.popNotices, NoticeService.pop_notice]
      rw [ih rest infos (some e) (by simp at h; omega)]
      simp
    | nil =>
      cases infos with
      | nil => simp at h
      | cons i rest =>
        simp only [NoticeService.popNotices, NoticeService.pop_notice]
        have hn : n = ([] : List Notice).length + rest.length := by
          simp only [List.length_nil, List.length_cons, Nat.zero_add] at h ⊢
          omega
        rw [ih [] rest (some i) hn]
        simp

/-- Claim C7: for every `NoticeService` state, popping returns all
pending error notices (in FIFO order among themselves) before any info
notice, even if info notices were pushed earlier; the popped notice
becomes the most recent notice; and `has_error` is true exactly when at
least one error notice is pending. -/
theorem c7_notice_priority (s : NoticeService) :
    NoticeService.popNotices (s.error_notices.length + s.info_notices.length) s
      = s.error_notices ++ s.info_notices
    ∧ (∀ (n : Notice) (s' : NoticeService),
        s.pop_notice = (some n, s') → s'.most_recent = some n)
    ∧ (s.has_error = true ↔ s.error_notices ≠ []) := by
  obtain ⟨infos, errs, mr⟩ := s
  refine ⟨popNotices_drain _ errs infos mr rfl, ?_, ?_⟩
  · intro n s' h
    cases errs with
    | cons e rest => simp [NoticeService.pop_notice] at h; simp [← h.2, h.1]
    | nil =>
      cases infos with
      | cons i rest => simp [NoticeService.pop_notice] at h; simp [← h.2, h.1]
      | nil => simp [NoticeService.pop_notice] at h
  · cases errs <;> simp [NoticeService.has_error]

/-- Witness for C7 at a concrete queue with one error notice behind two
info notices. -/
theorem c7_notice_priority_witness :
    (NoticeService.popNotices
        (sampleNoticeService.error_notices.length
          + sampleNoticeService.info_notices.length) sampleNoticeService
      = sampleNoticeService.error_notices ++ sampleNoticeService.info_notices)
    ∧ (NoticeService.mk [sampleNotice 1 .info, sampleNotice 2 .info] []
          (some (sampleNotice 3 .error))).most_recent
        = some (sampleNotice 3 .error)
    ∧ (sampleNoticeService.has_error = true
        ↔ sampleNoticeService.error_notices ≠ []) :=
  ⟨(c7_notice_priority sampleNoticeService).1,
   (c7_notice_priority sampleNoticeService).2.1 (sampleNotice 3 .error) _ (by decide),
   (c7_notice_priority sampleNoticeService).2.2⟩

/-- Counterexample to claim C4 as stated: `PipelineId` and `JobId` do not
deserialize from a string wire representation — `u64::deserialize`
rejects a JSON string — so not every one of the three identifier types
accepts both representations. -/
theorem c4_counterexample :
    deserializePipelineId (Json.str "123") = none
    ∧ deserializeJobId (Json.str "42") = none := ⟨rfl, rfl⟩

/-- Claim C4, amended: `ProjectId` deserializes from both a string and a
numeric JSON wire representation, while `PipelineId` and `JobId`
deserialize from a numeric representation only — a string is rejected. -/
theorem c4_id_deserialization :
    (∀ s : String, deserializeProjectId (Json.str s) = some (ProjectId.new s))
    ∧ (∀ n : Nat, n < 2 ^ 64 →
        deserializeProjectId (Json.num (n : Int))
          = some (ProjectId.new (toString (n : Int))))
    ∧ (∀ n : Nat, n < 2 ^ 64 →
        deserializePipelineId (Json.num (n : Int)) = some (PipelineId.new n))
    ∧ (∀ n : Nat, n < 2 ^ 64 →
        deserializeJobId (Json.num (n : Int)) = some (JobId.new n))
    ∧ (∀ s : String, deserializePipelineId (Json.str s) = none)
    ∧ (∀ s : String, deserializeJobId (Json.str s) = none) := by
  refine ⟨fun s => rfl, ?_, ?_, ?_, fun s => rfl, fun s => rfl⟩
  · intro n hn
    have h1 : (0 : Int) ≤ (n : Int) := Int.ofNat_nonneg n
    have h2 : (n : Int) < 2 ^ 64 := by exact_mod_cast hn
    simp only [deserializeProjectId]
    rw [if_pos (Or.inl ⟨h1, h2⟩)]
  · intro n hn
    have h1 : (0 : Int) ≤ (n : Int) := Int.ofNat_nonneg n
    have h2 : (n : Int) < 2 ^ 64 := by exact_mod_cast hn
    simp only [deserializePipelineId, deserializeU64]
    rw [if_pos ⟨h1, h2⟩]
    simp [PipelineId.new]
  · intro n hn
    have h1 : (0 : Int) ≤ (n : Int) := Int.ofNat_nonneg n
    have h2 : (n : Int) < 2 ^ 64 := by exact_mod_cast hn
    simp only [deserializeJobId, deserializeU64]
    rw [if_pos ⟨h1, h2⟩]
    simp [JobId.new]

/-- Witness for the amended C4 at concrete wire values. -/
theorem c4_id_deserialization_witness :
    deserializeProjectId (Json.str "acme/widgets")
        = some (ProjectId.new "acme/widgets")
    ∧ deserializeProjectId (Json.num (17 : Int)) = some (ProjectId.new "17")
    ∧ deserializePipelineId (Json.num (17 : Int)) = some (PipelineId.new 17)
    ∧ deserializeJobId (Json.num (17 : Int)) = some (JobId.new 17)
    ∧ deserializePipelineId (Json.str "17") = none
    ∧ deserializeJobId (Json.str "17") = none :=
  ⟨c4_id_deserialization.1 "acme/widgets",
   c4_id_deserialization.2.1 17 (by decide),
   c4_id_deserialization.2.2.1 17 (by decide),
   c4_id_deserialization.2.2.2.1 17 (by decide),
   c4_id_deserialization.2.2.2.2.1 "17",
   c4_id_deserialization.2.2.2.2.2 "17"⟩

/-- Claim C8: a 401 whose body is `{"error":"expired_token"}` classifies
as `ExpiredToken`, a body with error value `"invalid_token"` as
`InvalidToken`, and a 401 whose body carries neither recognized error
value (and whose `error_description` does not indicate expiry) — or no
parseable error body at all — as the generic `Authentication` error. -/
theorem c8_401_classification :
    handle_error_response 401 (some (Json.obj [("error", Json.str "expired_token")])) ""
        = ClientError.expiredToken
    ∧ handle_error_response 401 (some (Json.obj [("error", Json.str "invalid_token")])) ""
        = ClientError.invalidToken
    ∧ (∀ (body : Option Json) (bodyText : String),
        body.bind parseGithubApiError = none →
        handle_error_response 401 body bodyText = ClientError.authentication)
    ∧ (∀ (body : Option Json) (bodyText : String) (api_error : GithubApiError),
        body.bind parseGithubApiError = some api_error →
        api_error.error ≠ "invalid_token" →
        api_error.error ≠ "expired_token" →
        (∀ d, api_error.error_description = some d →
          strContains d "expired" = false ∧ strContains d "expiry" = false) →
        handle_error_response 401 body bodyText = ClientError.authentication) := by
  refine ⟨by decide, by decide, ?_, ?_⟩
  · intro body bodyText h
    simp [handle_error_response, h]
  · intro body bodyText api_error h h1 h2 h3
    simp only [handle_error_response, h, if_neg h1, if_neg h2]
    cases hd : api_error.error_description with
    | none => simp
    | some d => simp [(h3 d hd).1, (h3 d hd).2]

/-- Witness for C8: a 401 body with an unrecognized error value and a
non-expiry description classifies as generic `Authentication`. -/
theorem c8_401_classification_witness :
    (some (Json.obj [("error", Json.str "bad_scope"),
        ("error_description", Json.str "scope missing")]) : Option Json).bind
          parseGithubApiError
      = some ⟨"bad_scope", some "scope missing"⟩
    ∧ handle_error_response 401
        (some (Json.obj [("error", Json.str "bad_scope"),
          ("error_description", Json.str "scope missing")])) ""
      = ClientError.authentication
    ∧ handle_error_response 401 none "no body" = ClientError.authentication :=
  ⟨by decide,
   c8_401_classification.2.2.2
     (some (Json.obj [("error", Json.str "bad_scope"),
       ("error_description", Json.str "scope missing")])) ""
     ⟨"bad_scope", some "scope missing"⟩ (by decide) (by decide) (by decide)
     (by intro d hd
         cases hd
         exact ⟨by decide, by decide⟩),
   c8_401_classification.2.2.1 none "no body" rfl⟩

/-- Claim C9: `get_repository_statistics` fails exactly when the base
repository-metadata fetch fails; a contributor-summary failure falls back
to the recent-commit page count (and to `0` when that also fails), and an
artifact-list failure yields a total artifact size of `0` — neither
sub-fetch failure is propagated. -/
theorem c9_statistics_composite
    (repo_details : Except ClientError RepositoryDetailsDto)
    (contributors : Except ClientError (List ContributorDto))
    (commits : Except ClientError (List Json))
    (artifacts : Except ClientError (List ArtifactDto)) :
    ((∃ e, get_repository_statistics repo_details contributors commits artifacts
        = .error e) ↔ ∃ e, repo_details = .error e)
    ∧ (∀ details, repo_details = .ok details →
        ∃ stats, get_repository_statistics repo_details contributors commits artifacts
            = .ok stats
          ∧ (∀ cs, contributors = .ok cs →
              stats.commit_count = (cs.map (fun c => c.contributions)).sum % 2 ^ 32)
          ∧ (∀ e page, contributors = .error e → commits = .ok page →
              stats.commit_count = page.length % 2 ^ 32)
          ∧ (∀ e e', contributors = .error e → commits = .error e' →
              stats.commit_count = 0)
          ∧ (∀ e, artifacts = .error e → stats.job_artifacts_size = 0)) := by
  constructor
  · cases repo_details with
    | error e => simp [get_repository_statistics]
    | ok details => simp [get_repository_statistics]
  · intro details h
    subst h
    refine ⟨_, rfl, ?_, ?_, ?_, ?_⟩
    · intro cs hcs
      subst hcs
      simp [get_repository_statistics, get_commit_count]
    · intro e page hc hcm
      subst hc; subst hcm
      simp [get_repository_statistics, get_commit_count, get_commit_count_fallback]
    · intro e e' hc hcm
      subst hc; subst hcm
      simp [get_repository_statistics, get_commit_count, get_commit_count_fallback]
    · intro e ha
      subst ha
      simp [get_repository_statistics, get_total_artifacts_size]

/-- Witness for C9 at concrete fetch outcomes: base metadata succeeds,
contributor summary fails, recent-commit page has two entries, artifact
list fails. -/
theorem c9_statistics_composite_witness :
    ((∃ e, get_repository_statistics (.ok ⟨5⟩) (.error ClientError.timeout)
        (.ok [Json.null, Json.null]) (.error ClientError.http) = .error e)
      ↔ ∃ e, (Except.ok ⟨5⟩ : Except ClientError RepositoryDetailsDto) = .error e)
    ∧ ∃ stats, get_repository_statistics (.ok ⟨5⟩) (.error ClientError.timeout)
          (.ok [Json.null, Json.null]) (.error ClientError.http) = .ok stats
        ∧ stats.commit_count = 2 ∧ stats.job_artifacts_size = 0 := by
  have h := c9_statistics_composite (.ok ⟨5⟩) (.error ClientError.timeout)
    (.ok [Json.null, Json.null]) (.error ClientError.http)
  refine ⟨h.1, ?_⟩
  obtain ⟨stats, hs, -, hfall, -, hart⟩ := h.2 ⟨5⟩ rfl
  refine ⟨stats, hs, ?_, hart ClientError.http rfl⟩
  rw [hfall ClientError.timeout [Json.null, Json.null] rfl rfl]
  decide

/-- Claim C6: for a project inserted by a `ProjectsLoaded` batch, the
older-than-7-days test is strict greater-than on whole days since last
activity: last active exactly 8 days ago counts as older (no eager
pipeline fetch, pipelines stay absent), while 6 or 2 days ago does not —
the inserted project's pipelines become an empty (not absent) list and a
`PipelinesFetch` for its id is dispatched. -/
theorem c6_seven_day_cutoff (now : Int) (s : ProjectStore) (dto : ProjectDto)
    (habsent : s.project_idx (ProjectId.new dto.full_name) = none) :
    ((now - dto.updated_at = 8 * 86400) →
      is_older_than_7d now (Project.fromDto dto).last_activity = true
      ∧ (Project.fromDto dto).pipelines = none
      ∧ s.sync_project now (Project.fromDto dto) = some
          ({ s with
              project_id_lookup := s.project_id_lookup
                ++ [(ProjectId.new dto.full_name, s.projects.length)],
              projects := s.projects ++ [Project.fromDto dto] }, []))
    ∧ ((now - dto.updated_at = 6 * 86400 ∨ now - dto.updated_at = 2 * 86400) →
      is_older_than_7d now (Project.fromDto dto).last_activity = false
      ∧ ({ Project.fromDto dto with pipelines := some [] } : Project).pipelines
          = some []
      ∧ s.sync_project now (Project.fromDto dto) = some
          ({ s with
              project_id_lookup := s.project_id_lookup
                ++ [(ProjectId.new dto.full_name, s.projects.length)],
              projects := s.projects
                ++ [{ Project.fromDto dto with pipelines := some [] }] },
            [GlomEvent.PipelinesFetch (ProjectId.new dto.full_name)])) := by
  have hid : (Project.fromDto dto).id = ProjectId.new dto.full_name := rfl
  have hact : (Project.fromDto dto).last_activity = dto.updated_at := rfl
  constructor
  · intro h8
    have hold : is_older_than_7d now (Project.fromDto dto).last_activity = true := by
      rw [hact, is_older_than_7d, decide_eq_true_eq, h8]
      decide
    refine ⟨hold, rfl, ?_⟩
    simp only [ProjectStore.sync_project, hid, habsent, hold, if_true]
  · intro h6
    have hnot : is_older_than_7d now (Project.fromDto dto).last_activity = false := by
      rw [hact, is_older_than_7d, decide_eq_false_iff_not]
      rcases h6 with h | h <;> rw [h] <;> decide
    refine ⟨hnot, rfl, ?_⟩
    simp only [ProjectStore.sync_project, hid, habsent, hnot, Bool.false_eq_true,
      if_false]

/-- Witness for C6 at a concrete fresh store and concrete ages. -/
theorem c6_seven_day_cutoff_witness :
    ProjectStore.new.project_idx (ProjectId.new "acme/gadgets") = none
    ∧ is_older_than_7d (8 * 86400 + 100) (Project.fromDto sampleProjectDto).last_activity
        = true
    ∧ is_older_than_7d (6 * 86400 + 100) (Project.fromDto sampleProjectDto).last_activity
        = false
    ∧ ProjectStore.new.sync_project (6 * 86400 + 100) (Project.fromDto sampleProjectDto)
        = some
        ({ ProjectStore.new with
            project_id_lookup := [(ProjectId.new "acme/gadgets", 0)],
            projects := [{ Project.fromDto sampleProjectDto with pipelines := some [] }] },
          [GlomEvent.PipelinesFetch (ProjectId.new "acme/gadgets")]) := by
  have hab : ProjectStore.new.project_idx (ProjectId.new "acme/gadgets") = none := by
    decide
  have h8 := (c6_seven_day_cutoff (8 * 86400 + 100) ProjectStore.new sampleProjectDto
    hab).1 (by decide)
  have h6 := (c6_seven_day_cutoff (6 * 86400 + 100) ProjectStore.new sampleProjectDto
    hab).2 (Or.inl (by decide))
  refine ⟨hab, h8.1, h6.1, ?_⟩
  have := h6.2.2
  simpa using this

/-! ### Store helper lemmas -/

theorem project_idx_some {s : ProjectStore} {id : ProjectId} {idx : Nat}
    (h : s.project_idx id = some idx) :
    ∃ kv ∈ s.project_id_lookup, kv.1 = id ∧ kv.2 = idx := by
  unfold ProjectStore.project_idx lookupGet at h
  cases hf : s.project_id_lookup.find? (fun kv => decide (kv.1 = id)) with
  | none => rw [hf] at h; simp at h
  | some kv =>
    rw [hf] at h
    simp at h
    refine ⟨kv, List.mem_of_find?_eq_some hf, ?_, by simpa using h⟩
    have := List.find?_some hf
    simpa using this

theorem project_idx_none_forall {s : ProjectStore} {id : ProjectId}
    (h : s.project_idx id = none) :
    ∀ kv ∈ s.project_id_lookup, kv.1 ≠ id := by
  unfold ProjectStore.project_idx lookupGet at h
  cases hf : s.project_id_lookup.find? (fun kv => decide (kv.1 = id)) with
  | none =>
    intro kv hmem
    have := List.find?_eq_none.mp hf kv hmem
    simpa using this
  | some kv => rw [hf] at h; simp at h

theorem wf_get_of_idx {s : ProjectStore} {id : ProjectId} {idx : Nat}
    (hwf : s.Wf) (h : s.project_idx id = some idx) :
    ∃ p, s.projects[idx]? = some p ∧ p.id = id := by
  obtain ⟨kv, hmem, hk, hi⟩ := project_idx_some h
  obtain ⟨-, -, hres⟩ := hwf
  have hr := hres kv hmem
  cases hp : s.projects[kv.2]? with
  | none => rw [hp] at hr; simp at hr
  | some p =>
    rw [hp] at hr
    simp at hr
    exact ⟨p, by rw [← hi]; exact hp, by rw [hr, hk]⟩

theorem modifyAt_lookup (s : ProjectStore) (idx : Nat) (f : Project → Project) :
    (s.modifyAt idx f).project_id_lookup = s.project_id_lookup := rfl

theorem modifyAt_getElem? (s : ProjectStore) (idx : Nat) (f : Project → Project)
    (i : Nat) :
    (s.modifyAt idx f).projects[i]?
      = if idx = i then (s.projects[i]?).map f else s.projects[i]? := by
  show (s.projects.modify f idx)[i]? = _
  rw [List.getElem?_modify]
  cases s.projects[i]? <;> split <;> simp_all

theorem modifyAt_length (s : ProjectStore) (idx : Nat) (f : Project → Project) :
    (s.modifyAt idx f).projects.length = s.projects.length := by
  show (s.projects.modify f idx).length = _
  exact List.length_modify ..

theorem wf_modifyAt {s : ProjectStore} {idx : Nat} {f : Project → Project}
    (hwf : s.Wf)
    (hf : ∀ p, s.projects[idx]? = some p → (f p).id = p.id) :
    (s.modifyAt idx f).Wf := by
  obtain ⟨hnd, hlen, hres⟩ := hwf
  refine ⟨hnd, by rw [modifyAt_length]; exact hlen, ?_⟩
  intro kv hmem
  rw [modifyAt_getElem?]
  by_cases hcase : idx = kv.2
  · rw [if_pos hcase]
    have hr := hres kv hmem
    cases hp : s.projects[kv.2]? with
    | none => rw [hp] at hr; simp at hr
    | some p =>
      rw [hp] at hr
      simp at hr
      have hid := hf p (by rw [hcase]; exact hp)
      simp [hid, hr]
  · rw [if_neg hcase]
    exact hres kv hmem

theorem preserves_refl (s : ProjectStore) : s.preserves s :=
  ⟨le_refl _, fun _ p hp => ⟨p, hp, rfl, fun h => h⟩⟩

theorem preserves_trans {a b c : ProjectStore}
    (hab : a.preserves b) (hbc : b.preserves c) : a.preserves c := by
  refine ⟨le_trans hab.1 hbc.1, ?_⟩
  intro i p hp
  obtain ⟨q, hq, hqid, hqpip⟩ := hab.2 i p hp
  obtain ⟨r, hr, hrid, hrpip⟩ := hbc.2 i q hq
  exact ⟨r, hr, by rw [hrid, hqid], fun h => hrpip (hqpip h)⟩

theorem preserves_modifyAt {s : ProjectStore} {idx : Nat} {f : Project → Project}
    (hid : ∀ p, s.projects[idx]? = some p → (f p).id = p.id)
    (hpip : ∀ p, s.projects[idx]? = some p →
      p.pipelines.isSome = true → (f p).pipelines.isSome = true) :
    s.preserves (s.modifyAt idx f) := by
  refine ⟨by rw [modifyAt_length], ?_⟩
  intro i p hp
  rw [modifyAt_getElem?]
  by_cases hcase : idx = i
  · subst hcase
    exact ⟨f p, by simp [hp], hid p hp, hpip p hp⟩
  · exact ⟨p, by rw [if_neg hcase]; exact hp, rfl, fun h => h⟩

theorem preserves_of_append {s s' : ProjectStore} {l : List Project}
    (h : s'.projects = s.projects ++ l) : s.preserves s' := by
  refine ⟨by rw [h]; simp, ?_⟩
  intro i p hp
  have hi : i < s.projects.length := by
    by_contra hge
    rw [List.getElem?_eq_none (by omega)] at hp
    exact Option.noConfusion hp
  refine ⟨p, ?_, rfl, fun h => h⟩
  rw [h, List.getElem?_append]
  rw [if_pos hi]
  exact hp

/-- Field lemmas for the project-update helpers. -/
theorem update_project_id (self project : Project) :
    (self.update_project project).id = project.id := rfl

theorem update_project_pipelines (self project : Project) :
    (self.update_project project).pipelines = self.pipelines := rfl

theorem update_pipelines_id (self : Project) (ps : List Pipeline) :
    (self.update_pipelines ps).id = self.id := rfl

theorem update_pipelines_pipelines_isSome (self : Project) (ps : List Pipeline) :
    (self.update_pipelines ps).pipelines.isSome = true := rfl

theorem update_jobs_id (self : Project) (pid : PipelineId) (js : List Job) :
    (self.update_jobs pid js).id = self.id := by
  cases h : self.pipelines <;> simp [Project.update_jobs, h]

theorem update_jobs_pipelines_isSome (self : Project) (pid : PipelineId)
    (js : List Job) :
    (self.update_jobs pid js).pipelines.isSome = self.pipelines.isSome := by
  cases h : self.pipelines <;> simp [Project.update_jobs, h]

theorem update_commit_id (self : Project) (pid : PipelineId) (c : Commit) :
    (self.update_commit pid c).id = self.id := by
  cases h : self.pipelines <;> simp [Project.update_commit, h]

theorem update_commit_pipelines_isSome (self : Project) (pid : PipelineId)
    (c : Commit) :
    (self.update_commit pid c).pipelines.isSome = self.pipelines.isSome := by
  cases h : self.pipelines <;> simp [Project.update_commit, h]

/-- `sync_project` preserves the structural invariant, never removes a
project, never resets pipelines, and leaves the store with at least one
project. -/
theorem sync_project_wf_preserves {now : Int} {s : ProjectStore} {p : Project}
    {s1 : ProjectStore} {evts : List GlomEvent}
    (hwf : s.Wf) (h : s.sync_project now p = some (s1, evts)) :
    s1.Wf ∧ s.preserves s1 ∧ 0 < s1.projects.length := by
  simp only [ProjectStore.sync_project] at h
  cases hidx : s.project_idx p.id with
  | some idx =>
    rw [hidx] at h
    dsimp only at h
    obtain ⟨pex, hpex, hpexid⟩ := wf_get_of_idx hwf hidx
    rw [hpex] at h
    dsimp only at h
    simp only [Option.some_inj, Prod.mk.injEq] at h
    obtain ⟨hs1, -⟩ := h
    subst hs1
    have hlt : idx < s.projects.length := by
      by_contra hge
      rw [List.getElem?_eq_none (by omega)] at hpex
      exact Option.noConfusion hpex
    refine ⟨?_, ?_, by rw [modifyAt_length]; omega⟩
    · refine wf_modifyAt hwf ?_
      intro q hq
      rw [hpex] at hq
      cases hq
      rw [update_project_id, hpexid]
    · refine preserves_modifyAt ?_ ?_
      · intro q hq
        rw [hpex] at hq
        cases hq
        rw [update_project_id, hpexid]
      · intro q hq hqs
        rw [update_project_pipelines]
        exact hqs
  | none =>
    rw [hidx] at h
    dsimp only at h
    obtain ⟨hnd, hlen, hres⟩ := hwf
    have hfresh : ∀ kv ∈ s.project_id_lookup, kv.1 ≠ p.id :=
      project_idx_none_forall hidx
    have hkey : p.id ∉ s.project_id_lookup.map Prod.fst := by
      intro hmem
      obtain ⟨kv, hkv, hkveq⟩ := List.mem_map.mp hmem
      exact hfresh kv hkv hkveq
    -- both insertion branches append one project and one lookup entry
    have main : ∀ (x : Project), x.id = p.id →
        ∀ s1', s1'.projects = s.projects ++ [x] →
        s1'.project_id_lookup
          = s.project_id_lookup ++ [(p.id, s.projects.length)] →
        s1'.Wf ∧ s.preserves s1' ∧ 0 < s1'.projects.length := by
      intro x hx s1' hproj hlk
      refine ⟨⟨?_, ?_, ?_⟩, preserves_of_append hproj, by rw [hproj]; simp⟩
      · rw [hlk]
        simp only [List.map_append, List.map_cons, List.map_nil]
        rw [List.nodup_append]
        exact ⟨hnd, List.nodup_singleton _, by
          intro a ha hb
          simp only [List.mem_singleton] at hb
          subst hb
          exact hkey ha⟩
      · rw [hlk, hproj]
        simp [hlen]
      · intro kv hmem
        rw [hlk] at hmem
        rcases List.mem_append.mp hmem with hold | hnew
        · have hr := hres kv hold
          cases hp2 : s.projects[kv.2]? with
          | none => rw [hp2] at hr; simp at hr
          | some q =>
            rw [hp2] at hr
            have hlt : kv.2 < s.projects.length := by
              by_contra hge
              rw [List.getElem?_eq_none (by omega)] at hp2
              exact Option.noConfusion hp2
            rw [hproj, List.getElem?_append, if_pos hlt, hp2]
            exact hr
        · simp only [List.mem_singleton] at hnew
          subst hnew
          rw [hproj]
          simp only
          rw [List.getElem?_concat_length]
          simp [hx]
    cases hold7 : is_older_than_7d now p.last_activity with
    | true =>
      rw [hold7] at h
      simp only [Option.some.injEq, Prod.mk.injEq, if_true] at h
      obtain ⟨hs1, -⟩ := h
      exact main p rfl s1 (by rw [← hs1]) (by rw [← hs1])
    | false =>
      rw [hold7] at h
      simp only [Bool.false_eq_true, Option.some.injEq, Prod.mk.injEq, if_false] at h
      obtain ⟨hs1, -⟩ := h
      exact main { p with pipelines := some [] } rfl s1 (by rw [← hs1]) (by rw [← hs1])

theorem sync_project_isSome {now : Int} {s : ProjectStore} {p : Project}
    (hwf : s.Wf) : (s.sync_project now p).isSome = true := by
  simp only [ProjectStore.sync_project]
  cases hidx : s.project_idx p.id with
  | some idx =>
    obtain ⟨pex, hpex, -⟩ := wf_get_of_idx hwf hidx
    dsimp only
    rw [hpex]
    rfl
  | none =>
    dsimp only
    cases hold7 : is_older_than_7d now p.last_activity <;> simp [hold7]

/-- `syncAll` preserves the invariant and the no-removal/no-reset
properties; a non-empty batch leaves at least one project. -/
theorem syncAll_wf_preserves {now : Int} :
    ∀ {dtos : List ProjectDto} {s s1 : ProjectStore} {evts : List GlomEvent},
    s.Wf → s.syncAll now dtos = some (s1, evts) →
    s1.Wf ∧ s.preserves s1 ∧ (dtos ≠ [] → 0 < s1.projects.length) := by
  intro dtos
  induction dtos with
  | nil =>
    intro s s1 evts hwf h
    simp only [ProjectStore.syncAll, Option.some_inj, Prod.mk.injEq] at h
    obtain ⟨hs, -⟩ := h
    subst hs
    exact ⟨hwf, preserves_refl s, by simp⟩
  | @cons dto rest ih =>
    intro s s1 evts hwf h
    simp only [ProjectStore.syncAll] at h
    cases hsync : s.sync_project now (Project.fromDto dto) with
    | none => rw [hsync] at h; exact Option.noConfusion h
    | some r =>
      obtain ⟨sA, evts1⟩ := r
      rw [hsync] at h
      dsimp only at h
      cases hrest : sA.syncAll now rest with
      | none => rw [hrest] at h; exact Option.noConfusion h
      | some r2 =>
        obtain ⟨sB, evts2⟩ := r2
        rw [hrest] at h
        dsimp only at h
        simp only [Option.some.injEq, Prod.mk.injEq] at h
        obtain ⟨hs, -⟩ := h
        subst hs
        obtain ⟨hwfA, hpresA, hposA⟩ := sync_project_wf_preserves hwf hsync
        obtain ⟨hwfB, hpresB, -⟩ := ih hwfA hrest
        exact ⟨hwfB, preserves_trans hpresA hpresB,
          fun _ => lt_of_lt_of_le hposA hpresB.1⟩

theorem syncAll_isSome {now : Int} :
    ∀ {dtos : List ProjectDto} {s : ProjectStore},
    s.Wf → (s.syncAll now dtos).isSome = true := by
  intro dtos
  induction dtos with
  | nil => intro s hwf; rfl
  | @cons dto rest ih =>
    intro s hwf
    simp only [ProjectStore.syncAll]
    cases hsync : s.sync_project now (Project.fromDto dto) with
    | none =>
      have := @sync_project_isSome now s (Project.fromDto dto) hwf
      rw [hsync] at this
      exact absurd this (by simp)
    | some r =>
      obtain ⟨sA, evts1⟩ := r
      have hwfA := (sync_project_wf_preserves hwf hsync).1
      cases hrest : sA.syncAll now rest with
      | none =>
        have := ih hwfA
        rw [hrest] at this
        exact absurd this (by simp)
      | some r2 =>
        obtain ⟨sB, evts2⟩ := r2
        dsimp only
        rw [hrest]
        rfl

/-- Claim C2: every store operation preserves the structural invariants —
the lookup map has exactly as many entries as the project sequence, every
lookup entry resolves to the project whose id equals the key, no project
is ever removed, and a present `pipelines` field is never reset to
absent. -/
theorem c2_store_invariants (now : Int) (s : ProjectStore) (e : GlomEvent)
    (s' : ProjectStore) (out : List GlomEvent)
    (hwf : s.Wf) (happ : s.apply now e = some (s', out)) :
    s'.Wf ∧ s.preserves s' := by
  cases e with
  | ProjectDetailsOpen id =>
    simp only [ProjectStore.apply] at happ
    cases hfind : s.find id with
    | none => rw [hfind] at happ; exact Option.noConfusion happ
    | some o =>
      cases o with
      | none => rw [hfind] at happ; dsimp only at happ; exact Option.noConfusion happ
      | some project =>
        rw [hfind] at happ
        dsimp only at happ
        by_cases hcond : project.commit_count = 0 ∧ project.repo_size_kb = 0
            ∧ project.artifacts_size_kb = 0 ∧ project.statistics_loading = false
        · rw [if_pos hcond] at happ
          cases hidx2 : s.project_idx project.id with
          | none =>
            rw [hidx2] at happ
            dsimp only at happ
            simp only [Option.some.injEq, Prod.mk.injEq] at happ
            obtain ⟨hs, -⟩ := happ
            subst hs
            exact ⟨hwf, preserves_refl s⟩
          | some idx =>
            rw [hidx2] at happ
            dsimp only at happ
            cases hp2 : s.projects[idx]? with
            | none => rw [hp2] at happ; exact Option.noConfusion happ
            | some pm =>
              rw [hp2] at happ
              dsimp only at happ
              simp only [Option.some.injEq, Prod.mk.injEq] at happ
              obtain ⟨hs, -⟩ := happ
              subst hs
              exact ⟨wf_modifyAt hwf (fun q _ => rfl),
                preserves_modifyAt (fun q _ => rfl) (fun q _ hqs => hqs)⟩
        · rw [if_neg hcond] at happ
          simp only [Option.some.injEq, Prod.mk.injEq] at happ
          obtain ⟨hs, -⟩ := happ
          subst hs
          exact ⟨hwf, preserves_refl s⟩
  | ProjectsLoaded dtos =>
    simp only [ProjectStore.apply] at happ
    cases hsync : s.syncAll now dtos with
    | none => rw [hsync] at happ; dsimp only at happ; exact Option.noConfusion happ
    | some r =>
      obtain ⟨s1, evts⟩ := r
      rw [hsync] at happ
      dsimp only at happ
      obtain ⟨hwf1, hpres1, -⟩ := syncAll_wf_preserves hwf hsync
      cases hfirst : s.sorted.isEmpty with
      | true =>
        rw [hfirst] at happ
        simp only [if_true] at happ
        cases hhd : ({ s1 with
            sorted := s1.projects_sorted_by_last_activity } : ProjectStore).sorted.head? with
        | none => rw [hhd] at happ; exact Option.noConfusion happ
        | some hd =>
          rw [hhd] at happ
          dsimp only at happ
          simp only [Option.some.injEq, Prod.mk.injEq] at happ
          obtain ⟨hs, -⟩ := happ
          subst hs
          exact ⟨hwf1, hpres1⟩
      | false =>
        rw [hfirst] at happ
        simp only [Bool.false_eq_true, if_false] at happ
        simp only [Option.some.injEq, Prod.mk.injEq] at happ
        obtain ⟨hs, -⟩ := happ
        subst hs
        exact ⟨hwf1, hpres1⟩
  | PipelinesLoaded dtos =>
    simp only [ProjectStore.apply] at happ
    cases hhd : dtos.head? with
    | none => rw [hhd] at happ; exact Option.noConfusion happ
    | some first =>
      rw [hhd] at happ
      dsimp only at happ
      cases hidx : s.project_idx first.project_id with
      | none =>
        rw [hidx] at happ
        dsimp only at happ
        simp only [Option.some.injEq, Prod.mk.injEq] at happ
        obtain ⟨hs, -⟩ := happ
        subst hs
        exact ⟨hwf, preserves_refl s⟩
      | some idx =>
        rw [hidx] at happ
        dsimp only at happ
        cases hp : s.projects[idx]? with
        | none => rw [hp] at happ; exact Option.noConfusion happ
        | some project =>
          rw [hp] at happ
          dsimp only at happ
          simp only [Option.some.injEq, Prod.mk.injEq] at happ
          obtain ⟨hs, -⟩ := happ
          subst hs
          exact ⟨wf_modifyAt hwf (fun q _ => update_pipelines_id q _),
            preserves_modifyAt (fun q _ => update_pipelines_id q _)
              (fun q _ _ => update_pipelines_pipelines_isSome q _)⟩
  | JobsLoaded project_id pipeline_id job_dtos =>
    simp only [ProjectStore.apply] at happ
    cases hidx : s.project_idx project_id with
    | none =>
      rw [hidx] at happ
      dsimp only at happ
      simp only [Option.some.injEq, Prod.mk.injEq] at happ
      obtain ⟨hs, -⟩ := happ
      subst hs
      exact ⟨hwf, preserves_refl s⟩
    | some idx =>
      rw [hidx] at happ
      dsimp only at happ
      cases hp : s.projects[idx]? with
      | none => rw [hp] at happ; exact Option.noConfusion happ
      | some project =>
        rw [hp] at happ
        dsimp only at happ
        cases hj : job_dtos.head? with
        | none => rw [hj] at happ; exact Option.noConfusion happ
        | some j0 =>
          rw [hj] at happ
          dsimp only at happ
          simp only [Option.some.injEq, Prod.mk.injEq] at happ
          obtain ⟨hs, -⟩ := happ
          subst hs
          refine ⟨wf_modifyAt hwf ?_, preserves_modifyAt ?_ ?_⟩
          · intro q _
            rw [update_commit_id, update_jobs_id]
          · intro q _
            rw [update_commit_id, update_jobs_id]
          · intro q _ hqs
            rw [update_commit_pipelines_isSome, update_jobs_pipelines_isSome]
            exact hqs
  | ProjectStatisticsLoaded project_id statistics =>
    simp only [ProjectStore.apply] at happ
    cases hidx : s.project_idx project_id with
    | none =>
      rw [hidx] at happ
      dsimp only at happ
      simp only [Option.some.injEq, Prod.mk.injEq] at happ
      obtain ⟨hs, -⟩ := happ
      subst hs
      exact ⟨hwf, preserves_refl s⟩
    | some idx =>
      rw [hidx] at happ
      dsimp only at happ
      cases hp : s.projects[idx]? with
      | none => rw [hp] at happ; exact Option.noConfusion happ
      | some project =>
        rw [hp] at happ
        dsimp only at happ
        simp only [Option.some.injEq, Prod.mk.injEq] at happ
        obtain ⟨hs, -⟩ := happ
        subst hs
        exact ⟨wf_modifyAt hwf (fun q _ => rfl),
          preserves_modifyAt (fun q _ => rfl) (fun q _ hqs => hqs)⟩
  | ProjectSelected id =>
    simp only [ProjectStore.apply] at happ
    cases hidx : s.project_idx id with
    | none =>
      rw [hidx] at happ
      dsimp only at happ
      simp only [Option.some.injEq, Prod.mk.injEq] at happ
      obtain ⟨hs, -⟩ := happ
      subst hs
      exact ⟨hwf, preserves_refl s⟩
    | some idx =>
      rw [hidx] at happ
      dsimp only at happ
      cases hp : s.projects[idx]? with
      | none => rw [hp] at happ; exact Option.noConfusion happ
      | some project =>
        rw [hp] at happ
        dsimp only at happ
        cases hpip : project.pipelines.isNone with
        | true =>
          rw [hpip] at happ
          simp only [if_true] at happ
          simp only [Option.some.injEq, Prod.mk.injEq] at happ
          obtain ⟨hs, -⟩ := happ
          subst hs
          exact ⟨wf_modifyAt hwf (fun q _ => rfl),
            preserves_modifyAt (fun q _ => rfl) (fun q _ _ => rfl)⟩
        | false =>
          rw [hpip] at happ
          simp only [Bool.false_eq_true, if_false] at happ
          simp only [Option.some.injEq, Prod.mk.injEq] at happ
          obtain ⟨hs, -⟩ := happ
          subst hs
          exact ⟨hwf, preserves_refl s⟩
  | ProjectUpdated project =>
    simp only [ProjectStore.apply, Option.some.injEq, Prod.mk.injEq] at happ
    obtain ⟨hs, -⟩ := happ
    subst hs
    exact ⟨hwf, preserves_refl s⟩
  | PipelinesFetch id =>
    simp only [ProjectStore.apply, Option.some.injEq, Prod.mk.injEq] at happ
    obtain ⟨hs, -⟩ := happ
    subst hs
    exact ⟨hwf, preserves_refl s⟩
  | JobsFetch project_id pipeline_id =>
    simp only [ProjectStore.apply, Option.some.injEq, Prod.mk.injEq] at happ
    obtain ⟨hs, -⟩ := happ
    subst hs
    exact ⟨hwf, preserves_refl s⟩
  | ProjectStatisticsFetch id =>
    simp only [ProjectStore.apply, Option.some.injEq, Prod.mk.injEq] at happ
    obtain ⟨hs, -⟩ := happ
    subst hs
    exact ⟨hwf, preserves_refl s⟩
  | otherEvent =>
    simp only [ProjectStore.apply, Option.some.injEq, Prod.mk.injEq] at happ
    obtain ⟨hs, -⟩ := happ
    subst hs
    exact ⟨hwf, preserves_refl s⟩

/-- Witness for C2 at a concrete well-formed store and a concrete event. -/
theorem c2_store_invariants_witness :
    sampleStore.Wf
    ∧ sampleStore.apply 0 (.ProjectSelected sampleProjectId) = some (sampleStore, [])
    ∧ sampleStore.Wf ∧ sampleStore.preserves sampleStore :=
  ⟨by decide, by decide,
   c2_store_invariants 0 sampleStore (.ProjectSelected sampleProjectId)
     sampleStore [] (by decide) (by decide)⟩

/-- Claim C10: `ProjectStore::apply` panics on a `PipelinesLoaded` event
with an empty pipeline list, on a `JobsLoaded` event with an empty
job-DTO list for a known project, on a `ProjectDetailsOpen` for an id not
present in the store, and on a very first `ProjectsLoaded` batch that is
empty; for non-empty batches and present ids these four handlers do not
panic (modelled: `apply` returns `none` exactly on panic; the event
channel sender is assumed alive). -/
theorem c10_apply_panics :
    (∀ (now : Int) (s : ProjectStore),
      s.apply now (.PipelinesLoaded []) = none)
    ∧ (∀ (now : Int) (s : ProjectStore) (pid : ProjectId) (plid : PipelineId),
        s.Wf → (s.project_idx pid).isSome = true →
        s.apply now (.JobsLoaded pid plid []) = none)
    ∧ (∀ (now : Int) (s : ProjectStore) (id : ProjectId),
        s.project_idx id = none →
        s.apply now (.ProjectDetailsOpen id) = none)
    ∧ (∀ (now : Int) (s : ProjectStore),
        s.projects = [] → s.sorted = [] →
        s.apply now (.ProjectsLoaded []) = none)
    ∧ (∀ (now : Int) (s : ProjectStore) (dtos : List PipelineDto),
        s.Wf → dtos ≠ [] →
        (s.apply now (.PipelinesLoaded dtos)).isSome = true)
    ∧ (∀ (now : Int) (s : ProjectStore) (pid : ProjectId) (plid : PipelineId)
        (dtos : List JobDto),
        s.Wf → dtos ≠ [] →
        (s.apply now (.JobsLoaded pid plid dtos)).isSome = true)
    ∧ (∀ (now : Int) (s : ProjectStore) (id : ProjectId),
        s.Wf → (s.project_idx id).isSome = true →
        (s.apply now (.ProjectDetailsOpen id)).isSome = true)
    ∧ (∀ (now : Int) (s : ProjectStore) (dtos : List ProjectDto),
        s.Wf → dtos ≠ [] →
        (s.apply now (.ProjectsLoaded dtos)).isSome = true) := by
  refine ⟨?_, ?_, ?_, ?_, ?_, ?_, ?_, ?_⟩
  · intro now s
    rfl
  · intro now s pid plid hwf hsome
    obtain ⟨idx, hidx⟩ := Option.isSome_iff_exists.mp hsome
    obtain ⟨pex, hpex, -⟩ := wf_get_of_idx hwf hidx
    simp only [ProjectStore.apply]
    rw [hidx]
    dsimp only
    rw [hpex]
    rfl
  · intro now s id h
    have hfind : s.find id = some none := by
      simp only [ProjectStore.find]
      rw [h]
    simp only [ProjectStore.apply]
    rw [hfind]
  · intro now s hproj hsort
    simp only [ProjectStore.apply, ProjectStore.syncAll]
    rw [hsort]
    simp only [List.isEmpty_nil, if_true]
    simp [ProjectStore.projects_sorted_by_last_activity, hproj]
  · intro now s dtos hwf hne
    cases dtos with
    | nil => exact absurd rfl hne
    | cons d rest =>
      simp only [ProjectStore.apply, List.head?_cons]
      cases hidx : s.project_idx d.project_id with
      | none => rfl
      | some idx =>
        obtain ⟨pex, hpex, -⟩ := wf_get_of_idx hwf hidx
        dsimp only
        rw [hpex]
        rfl
  · intro now s pid plid dtos hwf hne
    cases dtos with
    | nil => exact absurd rfl hne
    | cons d rest =>
      simp only [ProjectStore.apply]
      cases hidx : s.project_idx pid with
      | none => rfl
      | some idx =>
        obtain ⟨pex, hpex, -⟩ := wf_get_of_idx hwf hidx
        dsimp only
        rw [hpex]
        rfl
  · intro now s id hwf hsome
    obtain ⟨idx, hidx⟩ := Option.isSome_iff_exists.mp hsome
    obtain ⟨p, hp, hpid⟩ := wf_get_of_idx hwf hidx
    have hfind : s.find id = some (some p) := by
      simp only [ProjectStore.find]
      rw [hidx]
      dsimp only
      rw [hp]
    simp only [ProjectStore.apply]
    rw [hfind]
    dsimp only
    by_cases hcond : p.commit_count = 0 ∧ p.repo_size_kb = 0
        ∧ p.artifacts_size_kb = 0 ∧ p.statistics_loading = false
    · rw [if_pos hcond, hpid, hidx]
      dsimp only
      rw [hp]
      rfl
    · rw [if_neg hcond]
      rfl
  · intro now s dtos hwf hne
    cases hsync : s.syncAll now dtos with
    | none =>
      have h := @syncAll_isSome now dtos s hwf
      rw [hsync] at h
      exact absurd h (by simp)
    | some r =>
      obtain ⟨s1, evts⟩ := r
      obtain ⟨-, -, hpos⟩ := syncAll_wf_preserves hwf hsync
      have hlen : 0 < s1.projects.length := hpos hne
      simp only [ProjectStore.apply]
      rw [hsync]
      dsimp only
      cases hfirst : s.sorted.isEmpty with
      | false => simp
      | true =>
        simp only [if_true]
        cases hhd : s1.projects_sorted_by_last_activity.head? with
        | none =>
          have : s1.projects_sorted_by_last_activity = [] :=
            List.head?_eq_none_iff.mp hhd
          have hlen2 : s1.projects_sorted_by_last_activity.length
              = s1.projects.length := List.length_insertionSort _ _
          rw [this] at hlen2
          simp at hlen2
          omega
        | some hd =>
          dsimp only
          rfl

/-- Witness for C10 at concrete stores and events. -/
theorem c10_apply_panics_witness :
    ProjectStore.apply 0 sampleStore (.PipelinesLoaded []) = none
    ∧ ProjectStore.apply 0 sampleStore
        (.JobsLoaded sampleProjectId (PipelineId.new 10) []) = none
    ∧ ProjectStore.apply 0 sampleStore
        (.ProjectDetailsOpen (ProjectId.new "acme/unknown")) = none
    ∧ ProjectStore.apply 0 ProjectStore.new (.ProjectsLoaded []) = none
    ∧ (ProjectStore.apply 0 sampleStore
        (.PipelinesLoaded [samplePipelineDto])).isSome = true
    ∧ (ProjectStore.apply 0 sampleStore
        (.JobsLoaded sampleProjectId (PipelineId.new 10) [sampleJobDto])).isSome = true
    ∧ (ProjectStore.apply 0 sampleStore
        (.ProjectDetailsOpen sampleProjectId)).isSome = true
    ∧ (ProjectStore.apply 0 sampleStore
        (.ProjectsLoaded [sampleProjectDto])).isSome = true :=
  ⟨c10_apply_panics.1 0 sampleStore,
   c10_apply_panics.2.1 0 sampleStore sampleProjectId (PipelineId.new 10)
     (by decide) (by decide),
   c10_apply_panics.2.2.1 0 sampleStore (ProjectId.new "acme/unknown") (by decide),
   c10_apply_panics.2.2.2.1 0 ProjectStore.new rfl rfl,
   c10_apply_panics.2.2.2.2.1 0 sampleStore [samplePipelineDto] (by decide)
     (by decide),
   c10_apply_panics.2.2.2.2.2.1 0 sampleStore sampleProjectId (PipelineId.new 10)
     [sampleJobDto] (by decide) (by decide),
   c10_apply_panics.2.2.2.2.2.2.1 0 sampleStore sampleProjectId (by decide)
     (by decide),
   c10_apply_panics.2.2.2.2.2.2.2 0 sampleStore [sampleProjectDto] (by decide)
     (by decide)⟩

/-- `mergePipeline` matches on exactly the lookup `Project::pipeline`
performs. -/
theorem mergePipeline_eq (self : Project) (p : Pipeline) :
    self.mergePipeline p
      = match self.pipeline p.id with
        | some existing => { p with jobs := existing.jobs, commit := existing.commit }
        | none => p := rfl

/-- `iter_mut().find` + field assignment commutes with a later
first-match lookup when the mutation preserves the pipeline id. -/
theorem find?_updateFirstPipeline (ps : List Pipeline) (id : PipelineId)
    (f : Pipeline → Pipeline) (hf : ∀ q, (f q).id = q.id) :
    (updateFirstPipeline ps id f).find? (fun q => decide (q.id = id))
      = (ps.find? (fun q => decide (q.id = id))).map f := by
  induction ps with
  | nil => rfl
  | cons p rest ih =>
    by_cases hp : p.id = id
    · simp only [updateFirstPipeline, if_pos hp]
      rw [List.find?_cons_of_pos _ (by simp [hf, hp]),
        List.find?_cons_of_pos _ (by simp [hp])]
      rfl
    · simp only [updateFirstPipeline, if_neg hp]
      rw [List.find?_cons_of_neg _ (by simp [hp]),
        List.find?_cons_of_neg _ (by simp [hp])]
      exact ih

/-- Claim C1: applying a `PipelinesLoaded` batch to the owning project
replaces that project by `update_pipelines` of the incoming batch, and in
the merged pipeline list every incoming pipeline whose id matches an
existing pipeline keeps the existing `jobs` and `commit` while all its
other fields are the incoming values; incoming pipelines with unseen ids
are inserted as given. -/
theorem c1_pipelines_merge (now : Int) (s s' : ProjectStore)
    (dtos : List PipelineDto) (first : PipelineDto) (out : List GlomEvent)
    (idx : Nat) (project : Project)
    (hhd : dtos.head? = some first)
    (hidx : s.project_idx first.project_id = some idx)
    (hp : s.projects[idx]? = some project)
    (happ : s.apply now (.PipelinesLoaded dtos) = some (s', out)) :
    s'.projects[idx]? = some (project.update_pipelines (dtos.map Pipeline.fromDto))
    ∧ ∀ p ∈ dtos.map Pipeline.fromDto,
        ∃ q, q ∈ (project.update_pipelines (dtos.map Pipeline.fromDto)).pipelines.getD []
          ∧ q.id = p.id ∧ q.project_id = p.project_id ∧ q.name = p.name
          ∧ q.status = p.status ∧ q.source = p.source ∧ q.branch = p.branch
          ∧ q.url = p.url ∧ q.created_at = p.created_at ∧ q.updated_at = p.updated_at
          ∧ (∀ ep, project.pipeline p.id = some ep →
              q.jobs = ep.jobs ∧ q.commit = ep.commit)
          ∧ (project.pipeline p.id = none → q.jobs = p.jobs ∧ q.commit = p.commit) := by
  simp only [ProjectStore.apply] at happ
  rw [hhd] at happ
  dsimp only at happ
  rw [hidx] at happ
  dsimp only at happ
  rw [hp] at happ
  dsimp only at happ
  simp only [Option.some.injEq, Prod.mk.injEq] at happ
  obtain ⟨hs, -⟩ := happ
  subst hs
  constructor
  · show (s.modifyAt idx fun pr => pr.update_pipelines (dtos.map Pipeline.fromDto)).projects[idx]?
        = _
    rw [modifyAt_getElem?, if_pos rfl, hp]
    rfl
  · intro p hpmem
    refine ⟨project.mergePipeline p, ?_, ?_⟩
    · show project.mergePipeline p
        ∈ ((dtos.map Pipeline.fromDto).map (fun q => project.mergePipeline q)).insertionSort
            (fun a b => b.updated_at ≤ a.updated_at)
      rw [(List.perm_insertionSort _ _).mem_iff]
      exact List.mem_map.mpr ⟨p, hpmem, rfl⟩
    · rw [mergePipeline_eq]
      cases hfind : project.pipeline p.id with
      | some existing =>
        exact ⟨rfl, rfl, rfl, rfl, rfl, rfl, rfl, rfl, rfl,
          fun ep hep => by cases hep; exact ⟨rfl, rfl⟩,
          fun hnone => Option.noConfusion hnone⟩
      | none =>
        exact ⟨rfl, rfl, rfl, rfl, rfl, rfl, rfl, rfl, rfl,
          fun ep hep => Option.noConfusion hep,
          fun _ => ⟨rfl, rfl⟩⟩

/-- Witness for C1: a batch refreshing a pipeline that already carries
jobs and a commit. -/
theorem c1_pipelines_merge_witness :
    sampleStore.apply 0 (.PipelinesLoaded [samplePipelineDto])
      = some
        ({ projects := [sampleProject.update_pipelines
              ([samplePipelineDto].map Pipeline.fromDto)],
           project_id_lookup := [(sampleProjectId, 0)],
           sorted := [sampleProject.update_pipelines
              ([samplePipelineDto].map Pipeline.fromDto)] },
          [GlomEvent.ProjectUpdated (sampleProject.update_pipelines
            ([samplePipelineDto].map Pipeline.fromDto))])
    ∧ (sampleProject.update_pipelines ([samplePipelineDto].map Pipeline.fromDto)).pipelines
        = some [{ Pipeline.fromDto samplePipelineDto with
            jobs := some [sampleJob], commit := some sampleCommit }]
    ∧ (∀ p ∈ [samplePipelineDto].map Pipeline.fromDto,
        ∃ q, q ∈ (sampleProject.update_pipelines
              ([samplePipelineDto].map Pipeline.fromDto)).pipelines.getD []
          ∧ q.id = p.id ∧ q.project_id = p.project_id ∧ q.name = p.name
          ∧ q.status = p.status ∧ q.source = p.source ∧ q.branch = p.branch
          ∧ q.url = p.url ∧ q.created_at = p.created_at ∧ q.updated_at = p.updated_at
          ∧ (∀ ep, sampleProject.pipeline p.id = some ep →
              q.jobs = ep.jobs ∧ q.commit = ep.commit)
          ∧ (sampleProject.pipeline p.id = none →
              q.jobs = p.jobs ∧ q.commit = p.commit)) :=
  ⟨by decide, by decide,
   (c1_pipelines_merge 0 sampleStore
     { projects := [sampleProject.update_pipelines
          ([samplePipelineDto].map Pipeline.fromDto)],
       project_id_lookup := [(sampleProjectId, 0)],
       sorted := [sampleProject.update_pipelines
          ([samplePipelineDto].map Pipeline.fromDto)] }
     [samplePipelineDto] samplePipelineDto
     [GlomEvent.ProjectUpdated (sampleProject.update_pipelines
       ([samplePipelineDto].map Pipeline.fromDto))]
     0 sampleProject rfl (by decide) (by decide) (by decide)).2⟩

/-- Claim C5: a `JobsLoaded` event for a known pipeline P of a known
project — produced by `get_jobs`, which sorts the remote response —
always leaves `project.pipeline(P).jobs` as exactly the input job list
sorted by ascending job id, regardless of the order in which the jobs
arrived from the remote API. -/
theorem c5_jobs_sorted (now : Int) (s s' : ProjectStore)
    (project_id : ProjectId) (pipeline_id : PipelineId) (apiJobs : List JobDto)
    (idx : Nat) (project : Project) (out : List GlomEvent)
    (hne : apiJobs ≠ [])
    (hidx : s.project_idx project_id = some idx)
    (hp : s.projects[idx]? = some project)
    (hpl : (project.pipeline pipeline_id).isSome = true)
    (happ : s.apply now
      (.JobsLoaded project_id pipeline_id (get_jobs_result apiJobs)) = some (s', out)) :
    ∃ proj' pl js, s'.projects[idx]? = some proj'
      ∧ proj'.pipeline pipeline_id = some pl
      ∧ pl.jobs = some js
      ∧ js.Perm (apiJobs.map Job.fromDto)
      ∧ List.Sorted (fun a b => a.id.value ≤ b.id.value) js := by
  have hlen : (get_jobs_result apiJobs).length = apiJobs.length :=
    List.length_insertionSort _ _
  have hne' : get_jobs_result apiJobs ≠ [] := by
    intro hnil
    rw [hnil] at hlen
    exact hne (List.eq_nil_of_length_eq_zero hlen.symm)
  obtain ⟨j0, js0, hj0⟩ : ∃ j0 js0, get_jobs_result apiJobs = j0 :: js0 := by
    cases hjs : get_jobs_result apiJobs with
    | nil => exact absurd hjs hne'
    | cons a l => exact ⟨a, l, rfl⟩
  simp only [ProjectStore.apply] at happ
  rw [hidx] at happ
  dsimp only at happ
  rw [hp] at happ
  dsimp only at happ
  rw [hj0] at happ
  simp only [List.head?_cons] at happ
  simp only [Option.some.injEq, Prod.mk.injEq] at happ
  obtain ⟨hs, -⟩ := happ
  subst hs
  obtain ⟨ps, hps⟩ : ∃ ps, project.pipelines = some ps := by
    cases hq : project.pipelines with
    | none => rw [Project.pipeline, hq] at hpl; simp at hpl
    | some ps => exact ⟨ps, rfl⟩
  obtain ⟨pl0, hpl0⟩ : ∃ pl0,
      ps.find? (fun q => decide (q.id = pipeline_id)) = some pl0 := by
    rw [Project.pipeline, hps] at hpl
    exact Option.isSome_iff_exists.mp hpl
  have hupd : ((project.update_jobs pipeline_id
      ((get_jobs_result apiJobs).map Job.fromDto)).update_commit pipeline_id
      (Commit.fromDto j0.commit)).pipelines
        = some (updateFirstPipeline
            (updateFirstPipeline ps pipeline_id
              (fun q => { q with
                jobs := some ((get_jobs_result apiJobs).map Job.fromDto) }))
            pipeline_id
            (fun q => { q with commit := some (Commit.fromDto j0.commit) })) := by
    simp only [Project.update_jobs, hps]
    simp only [Project.update_commit]
  refine ⟨(project.update_jobs pipeline_id
      ((get_jobs_result apiJobs).map Job.fromDto)).update_commit pipeline_id
      (Commit.fromDto j0.commit),
    (fun q => { q with commit := some (Commit.fromDto j0.commit) })
      ((fun q => { q with
        jobs := some ((get_jobs_result apiJobs).map Job.fromDto) }) pl0),
    (get_jobs_result apiJobs).map Job.fromDto, ?_, ?_, rfl, ?_, ?_⟩
  · show (s.modifyAt idx fun pr => (pr.update_jobs pipeline_id
        ((j0 :: js0).map Job.fromDto)).update_commit pipeline_id
          (Commit.fromDto j0.commit)).projects[idx]? = _
    rw [modifyAt_getElem?, if_pos rfl, hp]
    rw [← hj0]
    rfl
  · rw [Project.pipeline, hupd]
    simp only [Option.some_bind]
    rw [find?_updateFirstPipeline
        (updateFirstPipeline ps pipeline_id
          (fun q => { q with
            jobs := some ((get_jobs_result apiJobs).map Job.fromDto) }))
        pipeline_id
        (fun q => { q with commit := some (Commit.fromDto j0.commit) })
        (fun q => rfl),
      find?_updateFirstPipeline ps pipeline_id
        (fun q => { q with
          jobs := some ((get_jobs_result apiJobs).map Job.fromDto) })
        (fun q => rfl),
      hpl0]
    rfl
  · exact (List.perm_insertionSort _ apiJobs).map Job.fromDto
  · haveI : IsTotal JobDto (fun a b => a.id.value ≤ b.id.value) :=
      ⟨fun a b => Nat.le_total _ _⟩
    haveI : IsTrans JobDto (fun a b => a.id.value ≤ b.id.value) :=
      ⟨fun _ _ _ hab hbc => Nat.le_trans hab hbc⟩
    have hsorted := List.sorted_insertionSort
      (fun (a b : JobDto) => a.id.value ≤ b.id.value) apiJobs
    exact List.Pairwise.map Job.fromDto (fun a b h => h) hsorted

/-- Witness for C5: two jobs arriving out of id order. -/
theorem c5_jobs_sorted_witness :
    get_jobs_result [sampleJobDto, sampleJobDto2]
      = [sampleJobDto2, sampleJobDto]
    ∧ ∃ proj' pl js,
      ({ projects := [((sampleProject.update_jobs (PipelineId.new 10)
            ([sampleJobDto2, sampleJobDto].map Job.fromDto)).update_commit
              (PipelineId.new 10) (Commit.fromDto sampleJobDto2.commit))],
         project_id_lookup := [(sampleProjectId, 0)],
         sorted := [((sampleProject.update_jobs (PipelineId.new 10)
            ([sampleJobDto2, sampleJobDto].map Job.fromDto)).update_commit
              (PipelineId.new 10) (Commit.fromDto sampleJobDto2.commit))] }
          : ProjectStore).projects[0]? = some proj'
      ∧ proj'.pipeline (PipelineId.new 10) = some pl
      ∧ pl.jobs = some js
      ∧ js.Perm ([sampleJobDto, sampleJobDto2].map Job.fromDto)
      ∧ List.Sorted (fun a b => a.id.value ≤ b.id.value) js := by
  refine ⟨by decide, ?_⟩
  exact c5_jobs_sorted 0 sampleStore _ sampleProjectId (PipelineId.new 10)
    [sampleJobDto, sampleJobDto2] 0 sampleProject
    [GlomEvent.ProjectUpdated ((sampleProject.update_jobs (PipelineId.new 10)
      ([sampleJobDto2, sampleJobDto].map Job.fromDto)).update_commit
        (PipelineId.new 10) (Commit.fromDto sampleJobDto2.commit))]
    (by decide) (by decide) (by decide) (by decide) (by decide)

/-- Claim C3: `ProjectDetailsOpen` on a project whose statistics have
never been loaded (all statistics counters zero, the store's record of
that fact) and are not currently loading emits exactly one
`ProjectStatisticsFetch` for that project, preceded by a `ProjectUpdated`
event carrying `statistics_loading = true`, with the store's project
marked loading; if statistics are already loaded (a non-zero counter) or
a fetch is in flight, no `ProjectStatisticsFetch` is emitted. -/
theorem c3_details_open_statistics (now : Int) (s : ProjectStore)
    (id : ProjectId) (project : Project)
    (hwf : s.Wf) (hfind : s.find id = some (some project)) :
    (project.commit_count = 0 ∧ project.repo_size_kb = 0
        ∧ project.artifacts_size_kb = 0 ∧ project.statistics_loading = false →
      ∃ s', s.apply now (.ProjectDetailsOpen id) = some (s',
          ((project.recent_pipelines.filter (fun p => p.jobs.isNone)).map
            (fun p => GlomEvent.JobsFetch project.id p.id))
          ++ [GlomEvent.ProjectUpdated { project with statistics_loading := true },
              GlomEvent.ProjectStatisticsFetch project.id])
        ∧ (((project.recent_pipelines.filter (fun p => p.jobs.isNone)).map
            (fun p => GlomEvent.JobsFetch project.id p.id))
          ++ [GlomEvent.ProjectUpdated { project with statistics_loading := true },
              GlomEvent.ProjectStatisticsFetch project.id]).countP
            GlomEvent.isStatisticsFetch = 1
        ∧ s'.find id = some (some { project with statistics_loading := true }))
    ∧ (¬(project.commit_count = 0 ∧ project.repo_size_kb = 0
          ∧ project.artifacts_size_kb = 0 ∧ project.statistics_loading = false) →
      s.apply now (.ProjectDetailsOpen id) = some (s,
          (project.recent_pipelines.filter (fun p => p.jobs.isNone)).map
            (fun p => GlomEvent.JobsFetch project.id p.id))
      ∧ ((project.recent_pipelines.filter (fun p => p.jobs.isNone)).map
          (fun p => GlomEvent.JobsFetch project.id p.id)).countP
            GlomEvent.isStatisticsFetch = 0) := by
  obtain ⟨idx, hidx, hp⟩ : ∃ idx, s.project_idx id = some idx
      ∧ s.projects[idx]? = some project := by
    unfold ProjectStore.find at hfind
    cases hi : s.project_idx id with
    | none => rw [hi] at hfind; simp at hfind
    | some idx =>
      rw [hi] at hfind
      dsimp only at hfind
      cases hpi : s.projects[idx]? with
      | none => rw [hpi] at hfind; simp at hfind
      | some q =>
        rw [hpi] at hfind
        simp only [Option.some.injEq] at hfind
        exact ⟨idx, rfl, by rw [hpi, hfind]⟩
  have hpid : project.id = id := by
    obtain ⟨q, hq, hqid⟩ := wf_get_of_idx hwf hidx
    rw [hp] at hq
    cases hq
    exact hqid
  have hfind' : s.find id = some (some project) := hfind
  have hcount0 : ((project.recent_pipelines.filter (fun p => p.jobs.isNone)).map
      (fun p => GlomEvent.JobsFetch project.id p.id)).countP
        GlomEvent.isStatisticsFetch = 0 := by
    rw [List.countP_map]
    exact List.countP_eq_zero.mpr (fun a _ => by simp [GlomEvent.isStatisticsFetch])
  constructor
  · intro hcond
    refine ⟨s.modifyAt idx (fun p => { p with statistics_loading := true }), ?_, ?_, ?_⟩
    · simp only [ProjectStore.apply]
      rw [hfind']
      dsimp only
      have hidx2 : s.project_idx project.id = some idx := by
        rw [hpid]
        exact hidx
      rw [if_pos hcond, hidx2]
      dsimp only
      rw [hp]
    · rw [List.countP_append, hcount0]
      rfl
    · show ProjectStore.find _ id = _
      unfold ProjectStore.find
      rw [show (s.modifyAt idx fun p =>
          { p with statistics_loading := true }).project_idx id
            = s.project_idx id from rfl, hidx]
      dsimp only
      rw [modifyAt_getElem?, if_pos rfl, hp]
      rfl
  · intro hcond
    refine ⟨?_, hcount0⟩
    simp only [ProjectStore.apply]
    rw [hfind']
    dsimp only
    rw [if_neg hcond]

/-- Witness for C3 at the sample store, whose project has zero statistics
counters, is not loading, and has one recent pipeline with jobs already
fetched. -/
theorem c3_details_open_statistics_witness :
    sampleStore.Wf
    ∧ sampleStore.find sampleProjectId = some (some sampleProject)
    ∧ ∃ s', sampleStore.apply 0 (.ProjectDetailsOpen sampleProjectId) = some (s',
          ((sampleProject.recent_pipelines.filter (fun p => p.jobs.isNone)).map
            (fun p => GlomEvent.JobsFetch sampleProject.id p.id))
          ++ [GlomEvent.ProjectUpdated { sampleProject with statistics_loading := true },
              GlomEvent.ProjectStatisticsFetch sampleProject.id])
        ∧ (((sampleProject.recent_pipelines.filter (fun p => p.jobs.isNone)).map
            (fun p => GlomEvent.JobsFetch sampleProject.id p.id))
          ++ [GlomEvent.ProjectUpdated { sampleProject with statistics_loading := true },
              GlomEvent.ProjectStatisticsFetch sampleProject.id]).countP
            GlomEvent.isStatisticsFetch = 1
        ∧ s'.find sampleProjectId
            = some (some { sampleProject with statistics_loading := true }) :=
  ⟨by decide, by decide,
   (c3_details_open_statistics 0 sampleStore sampleProjectId sampleProject
     (by decide) (by decide)).1 (by decide)⟩

end Glom
